import Mathlib

/-!
Shallow embedding of the slime-mold simulation (Masterchef365/slime).

The repository has two full engine variants that the claims reference:
* `src/main.rs` — the 2D engine (`Slime2` namespace below);
* `src/sim.rs`  — the 3D engine with quaternion headings (`Slime3` namespace below).

Modelling conventions:
* `f32` scalars are embedded as elements of a linear ordered field `K`
  (instantiated at `ℚ` for concrete evaluation and at `ℝ` where real
  trigonometry is needed).  Exact arithmetic has no NaN/∞, so the
  `is_finite` guard of the source is vacuously true in the model; the
  source's `Option`-shaped comparison types are kept structurally.
* Angles are turned into rotations through an explicit `Trig` record of
  cosine/sine functions (instantiated with `Real.cos`/`Real.sin` at `ℝ`),
  mirroring how `nalgebra` builds `Rotation2`/`UnitQuaternion` values
  from angles.
* `rand`'s `Uniform::new(low, high)` asserts `low < high` and panics
  otherwise; the model returns `Option`, with `none` for the panic.
  `Uniform` sampling consumes one draw `t ∈ [0,1)` from an rng stream
  `ℕ → K` addressed by an explicit cursor, giving `low + t·(high−low)`.
* `Array2D`/`Array3D` grids carry their extents and a total backing
  function; every read/write performed by the embedded code is guarded by
  the same bounds checks the source performs (the cross-buffer in-bounds
  argument is claim C10).
-/

set_option linter.unusedVariables false

namespace Slime

variable {K : Type} [LinearOrderedField K]

/-- Three-way comparison of two scalars, the total (non-NaN) case of
`f32::partial_cmp`. -/
def fcmp (x y : K) : Ordering :=
  if x < y then .lt else if x = y then .eq else .gt

/-- Rust's derived `PartialOrd` on `Option<f32>`: `None` sorts below any
`Some`, and two `Some`s compare by the inner values.  In exact arithmetic
the inner comparison is total, so the result is always `some`; the
`Option Ordering` shape of the source is preserved. -/
def ocmp (x y : Option K) : Option Ordering :=
  match x, y with
  | none, none => some .eq
  | none, some _ => some .lt
  | some _, none => some .gt
  | some a, some b => some (fcmp a b)

/-- `mix` from main.rs / sim.rs: linear interpolation. -/
def mix (a b t : K) : K := (1 - t) * a + t * b

/-- Cosine/sine pair used to build rotations from angles
(`Real.cos`/`Real.sin` at `K = ℝ`). -/
structure Trig (K : Type) where
  cos : K → K
  sin : K → K

/-- The real cosine/sine pair (noncomputable because exact real
trigonometry is). -/
noncomputable def realTrig : Trig ℝ := ⟨Real.cos, Real.sin⟩

/-- One bound of `sample_array_isize`'s `bounds` closure: a signed index is
valid when `0 ≤ x < w`. -/
def boundsZ (x : ℤ) (w : ℕ) : Option ℕ :=
  if 0 ≤ x ∧ x < (w : ℤ) then some x.toNat else none

/-- One bound of `sample_array_vect`'s `bounds` closure: a continuous
coordinate is valid when it is finite (vacuous here) and `0 ≤ x < w`;
`x as usize` truncates, which on the guarded range is the floor. -/
def boundsF [FloorRing K] (x : K) (w : ℕ) : Option ℕ :=
  if 0 ≤ x ∧ x < (w : K) then some ⌊x⌋.toNat else none

/-- `rand::distributions::Uniform` over `f32`, after a successful
`Uniform::new`. -/
structure Uniform (K : Type) where
  low : K
  high : K

/-- `Uniform::new(low, high)`: asserts `low < high` (panic, modelled as
`none`, otherwise). -/
def Uniform.new (low high : K) : Option (Uniform K) :=
  if low < high then some ⟨low, high⟩ else none

/-- Drawing from a `Uniform` given one raw rng draw `t ∈ [0,1)`:
the sampled value is `low + t·(high−low) ∈ [low, high)`. -/
def Uniform.sample (u : Uniform K) (t : K) : K := u.low + t * (u.high - u.low)

end Slime

namespace Slime2

open Slime

variable {K : Type} [LinearOrderedField K] [FloorRing K]

/-- `nalgebra::Vector2<f32>`. -/
structure Vec2 (K : Type) where
  x : K
  y : K

instance : Add (Vec2 K) := ⟨fun a b => ⟨a.x + b.x, a.y + b.y⟩⟩

/-- Scalar multiple `v * s` as written in the source. -/
def Vec2.scale (v : Vec2 K) (s : K) : Vec2 K := ⟨v.x * s, v.y * s⟩

/-- Squared Euclidean norm. -/
def Vec2.normSq (v : Vec2 K) : K := v.x ^ 2 + v.y ^ 2

/-- `nalgebra::Rotation2<f32>`: a rotation matrix, stored by the cosine
and sine of its angle (column `(c, s)` is the image of the x axis). -/
structure Rot2 (K : Type) where
  c : K
  s : K

/-- Matrix-vector product `r * v`. -/
def Rot2.apply (r : Rot2 K) (v : Vec2 K) : Vec2 K :=
  ⟨r.c * v.x - r.s * v.y, r.s * v.x + r.c * v.y⟩

/-- `Rotation2::identity()`. -/
def Rot2.identity : Rot2 K := ⟨1, 0⟩

/-- `Rotation2::inverse()`: the transpose, i.e. the rotation by the
negated angle. -/
def Rot2.inverse (r : Rot2 K) : Rot2 K := ⟨r.c, -r.s⟩

/-- `Rotation2::from_scaled_axis(Vector1::new(a))`: the rotation by angle
`a`. -/
def Rot2.fromScaledAxis (t : Trig K) (a : K) : Rot2 K := ⟨t.cos a, t.sin a⟩

/-- `idek_basics::Array2D<f32>`: a dense width × height grid.  The backing
store is a total function; all grid accesses in the embedded code are
bounds-guarded exactly where the source guards them. -/
structure Array2D (K : Type) where
  width : ℕ
  height : ℕ
  data : ℕ × ℕ → K

/-- `Array2D::new`: zero-initialised grid. -/
def Array2D.new (w h : ℕ) : Array2D K := ⟨w, h, fun _ => 0⟩

/-- Read `arr[pos]`. -/
def Array2D.get (a : Array2D K) (p : ℕ × ℕ) : K := a.data p

/-- Write `arr[pos] = v`. -/
def Array2D.set (a : Array2D K) (p : ℕ × ℕ) (v : K) : Array2D K :=
  { a with data := fun q => if q = p then v else a.data q }

/-- main.rs `sample_array_isize`: bounds-checked read at signed integer
coordinates; `none` when either axis is out of range. -/
def sample_array_isize (arr : Array2D K) (x y : ℤ) : Option K := do
  let px ← boundsZ x arr.width
  let py ← boundsZ y arr.height
  some (arr.get (px, py))

/-- main.rs `sample_array_vect`: converts a continuous position to a cell
index, succeeding only when every axis is finite, nonnegative and below
the extent. -/
def sample_array_vect (arr : Array2D K) (v : Vec2 K) : Option (ℕ × ℕ) := do
  let px ← boundsF v.x arr.width
  let py ← boundsF v.y arr.height
  some (px, py)

/-- main.rs `SlimeConfig`. -/
structure SlimeConfig (K : Type) where
  sensor_spread : K
  turn_speed : K
  decay : K
  deposit_rate : K
  move_speed : K
  sample_dist : K
  diffusion : K

/-- main.rs `SlimeParticle`. -/
structure SlimeParticle (K : Type) where
  position : Vec2 K
  heading : Vec2 K

/-- main.rs `SlimeData`. -/
structure SlimeData (K : Type) where
  medium : Array2D K
  slime : List (SlimeParticle K)

/-- main.rs `SlimeFactory` (after a successful `new`). -/
structure SlimeFactory (K : Type) where
  x : Uniform K
  y : Uniform K
  angle : Uniform K

/-- main.rs `SlimeFactory::new`; `tau` stands for the constant
`std::f32::consts::TAU` (2π), kept as a parameter so the model stays in an
arbitrary ordered field.  `Uniform::new` panics (`none`) when an extent
is zero. -/
def SlimeFactory.new (width height : ℕ) (tau : K) : Option (SlimeFactory K) := do
  let x ← Uniform.new 0 (width : K)
  let y ← Uniform.new 0 (height : K)
  let angle ← Uniform.new 0 tau
  some ⟨x, y, angle⟩

/-- main.rs `unit_circ`. -/
def unit_circ (t : Trig K) (a : K) : Vec2 K := ⟨t.cos a, t.sin a⟩

/-- main.rs `SlimeFactory::slime`: draws position x, position y and
heading angle from the three uniforms, consuming rng draws at cursors
`n`, `n+1`, `n+2`; returns the particle and the advanced cursor. -/
def SlimeFactory.slime (f : SlimeFactory K) (t : Trig K) (rng : ℕ → K) (n : ℕ) :
    SlimeParticle K × ℕ :=
  (⟨⟨f.x.sample (rng n), f.y.sample (rng (n + 1))⟩,
    unit_circ t (f.angle.sample (rng (n + 2)))⟩, n + 3)

/-- Spawn `n_particles` initial particles, threading the rng cursor. -/
def genParticles (f : SlimeFactory K) (t : Trig K) (rng : ℕ → K) :
    ℕ → ℕ → List (SlimeParticle K)
  | _, 0 => []
  | n, m + 1 =>
    let pn := f.slime t rng n
    pn.1 :: genParticles f t rng pn.2 m

/-- main.rs `SlimeSim`. -/
structure SlimeSim (K : Type) where
  front : SlimeData K
  back : SlimeData K
  factory : SlimeFactory K

/-- main.rs `SlimeSim::new`: the factory is built first (this is where a
zero extent panics), the initial particles are drawn, the front buffer is
assembled and the back buffer is its clone. -/
def SlimeSim.new (width height n_particles : ℕ) (t : Trig K) (tau : K)
    (rng : ℕ → K) : Option (SlimeSim K) := do
  let factory ← SlimeFactory.new width height tau
  let slime := genParticles factory t rng 0 n_particles
  let front : SlimeData K := ⟨Array2D.new width height, slime⟩
  some ⟨front, front, factory⟩

/-- main.rs `SlimeSim::frame`. -/
def SlimeSim.frame (s : SlimeSim K) : SlimeData K := s.front

/-- The 3×3 offset window of main.rs `diffuse_step`, as (i, j) pairs in
the source's loop order (`i` is added to y, `j` to x, each ranging over
`-1..=1`). -/
def diffuseOffsets : List (ℤ × ℤ) :=
  [(-1, -1), (-1, 0), (-1, 1), (0, -1), (0, 0), (0, 1), (1, -1), (1, 0), (1, 1)]

/-- main.rs `diffuse_step` inner loop: accumulate `(sum, n_parts)` of the
in-grid samples in the window around `(x, y)`. -/
def diffuseAccum (m : Array2D K) (x y : ℕ) : K × ℕ :=
  diffuseOffsets.foldl
    (fun acc ij =>
      match sample_array_isize m (ij.2 + (x : ℤ)) (ij.1 + (y : ℤ)) with
      | some v => (acc.1 + v, acc.2 + 1)
      | none => acc)
    (0, 0)

/-- main.rs `diffuse_step` body for one cell: average the present window
samples, blend the centre toward the average by `diffusion·dt`, scale by
`1 − decay·dt`. -/
def diffuseCell (cfg : SlimeConfig K) (dt : K) (m : Array2D K) (x y : ℕ) : K :=
  let sn := diffuseAccum m x y
  let avg := sn.1 / (sn.2 : K)
  let center := m.get (x, y)
  let diffuse := mix center avg (cfg.diffusion * dt)
  (1 - cfg.decay * dt) * diffuse

/-- main.rs `diffuse_step`: for every in-grid cell, compute the relaxed
value from the front medium and write it to the back medium; cells outside
the loop range keep the back medium's previous contents, and the front
medium is not touched. -/
def diffuse_step (cfg : SlimeConfig K) (dt : K) (front back : Array2D K) :
    Array2D K :=
  { back with
    data := fun p =>
      if p.1 < front.width ∧ p.2 < front.height then
        diffuseCell cfg dt front p.1 p.2
      else back.data p }

/-- The steering match of main.rs `particle_step`: select among the three
precomputed rotations from the two option-valued three-way comparisons.
Generic in the rotation type, mirroring the source arms exactly
(including the explicit `(Less, Greater)` arm and the catch-all). -/
def steer {R : Type} (left_turn_rate right_turn_rate unit_rot : R) :
    Option Ordering → Option Ordering → R
  | some .gt, some .gt => left_turn_rate
  | some .lt, some .lt => right_turn_rate
  | some .lt, some .gt => unit_rot
  | _, _ => unit_rot

/-- The sample position of one sensor in main.rs `particle_step`:
`f.position + r * f.heading * cfg.sample_dist`. -/
def sensorPos (cfg : SlimeConfig K) (f : SlimeParticle K) (r : Rot2 K) :
    Vec2 K :=
  f.position + (r.apply f.heading).scale cfg.sample_dist

/-- One sensor sample of main.rs `particle_step`: the sensor position is
bounds-checked against the back medium, and the sensed value is read from
the front medium. -/
def sensorSample (cfg : SlimeConfig K) (frontM backM : Array2D K)
    (f : SlimeParticle K) (r : Rot2 K) : Option K :=
  (sample_array_vect backM (sensorPos cfg f r)).map fun q => frontM.get q

/-- The Decide step of main.rs `particle_step`: sample the three sensors
(left via `lsr`, centre via the identity, right via `rsr`), compare
left-centre and centre-right, and pick the rotation through the match. -/
def decision (cfg : SlimeConfig K) (lsr rsr ltr rtr : Rot2 K)
    (frontM backM : Array2D K) (f : SlimeParticle K) : Rot2 K :=
  let left := sensorSample cfg frontM backM f lsr
  let center := sensorSample cfg frontM backM f Rot2.identity
  let right := sensorSample cfg frontM backM f rsr
  let lc := ocmp left center
  let cr := ocmp center right
  steer ltr rtr Rot2.identity lc cr

/-- The integrated heading of the main.rs loop body:
`rotation * f.heading`. -/
def newHeading (cfg : SlimeConfig K) (lsr rsr ltr rtr : Rot2 K)
    (frontM backM : Array2D K) (f : SlimeParticle K) : Vec2 K :=
  (decision cfg lsr rsr ltr rtr frontM backM f).apply f.heading

/-- The integrated position of the main.rs loop body:
`f.position + heading * move_speed * dt`. -/
def newPosition (cfg : SlimeConfig K) (dt : K) (lsr rsr ltr rtr : Rot2 K)
    (frontM backM : Array2D K) (f : SlimeParticle K) : Vec2 K :=
  f.position + (newHeading cfg lsr rsr ltr rtr frontM backM f).scale
    (cfg.move_speed * dt)

/-- main.rs `particle_step` loop body for one front particle `f`: sense,
decide, integrate, then either deposit and commit, or respawn from the
factory.  Returns the new back particle, the updated back medium and the
advanced rng cursor. -/
def particleBody (factory : SlimeFactory K) (t : Trig K) (cfg : SlimeConfig K)
    (dt : K) (lsr rsr ltr rtr : Rot2 K) (frontM backM : Array2D K)
    (f : SlimeParticle K) (rng : ℕ → K) (n : ℕ) :
    SlimeParticle K × Array2D K × ℕ :=
  let heading := newHeading cfg lsr rsr ltr rtr frontM backM f
  let position := newPosition cfg dt lsr rsr ltr rtr frontM backM f
  match sample_array_vect backM position with
  | some pos =>
    (⟨position, heading⟩, backM.set pos (backM.get pos + cfg.deposit_rate * dt), n)
  | none =>
    let pn := factory.slime t rng n
    (pn.1, backM, pn.2)

/-- The per-particle loop of main.rs `particle_step`: the source zips the
back slime slots with the front particles (the two lists always have
equal length, as back is a clone of front), overwriting every back slot;
modelled as a map over the front list threading the back medium and the
rng cursor. -/
def particleLoop (factory : SlimeFactory K) (t : Trig K) (cfg : SlimeConfig K)
    (dt : K) (lsr rsr ltr rtr : Rot2 K) (frontM : Array2D K) :
    List (SlimeParticle K) → Array2D K → (ℕ → K) → ℕ →
    List (SlimeParticle K) × Array2D K × ℕ
  | [], backM, _, n => ([], backM, n)
  | f :: fs, backM, rng, n =>
    let bmn := particleBody factory t cfg dt lsr rsr ltr rtr frontM backM f rng n
    let rest := particleLoop factory t cfg dt lsr rsr ltr rtr frontM fs bmn.2.1 rng bmn.2.2
    (bmn.1 :: rest.1, rest.2.1, rest.2.2)

/-- main.rs `particle_step`: precompute the sensor and turn rotations
from the config (note both are scaled by `dt` before entering
`from_scaled_axis`), then run the per-particle loop. -/
def particle_step (factory : SlimeFactory K) (t : Trig K) (cfg : SlimeConfig K)
    (dt : K) (front : SlimeData K) (backM : Array2D K) (rng : ℕ → K) (n : ℕ) :
    List (SlimeParticle K) × Array2D K × ℕ :=
  let lsr := Rot2.fromScaledAxis t (cfg.sensor_spread * dt)
  let rsr := lsr.inverse
  let ltr := Rot2.fromScaledAxis t (cfg.turn_speed * dt)
  let rtr := ltr.inverse
  particleLoop factory t cfg dt lsr rsr ltr rtr front.medium front.slime backM rng n

/-- main.rs `SlimeSim::step`: relax the medium front→back, step the
particles (reading front, writing back), then swap the two buffers. -/
def SlimeSim.step (t : Trig K) (cfg : SlimeConfig K) (dt : K) (rng : ℕ → K)
    (sim : SlimeSim K) : SlimeSim K :=
  let backM := diffuse_step cfg dt sim.front.medium sim.back.medium
  let out := particle_step sim.factory t cfg dt sim.front backM rng 0
  { front := ⟨out.2.1, out.1⟩, back := sim.front, factory := sim.factory }

end Slime2

namespace Slime3

open Slime

variable {K : Type} [LinearOrderedField K] [FloorRing K]

/-- `nalgebra::Vector3<f32>`. -/
structure Vec3 (K : Type) where
  x : K
  y : K
  z : K

instance : Add (Vec3 K) := ⟨fun a b => ⟨a.x + b.x, a.y + b.y, a.z + b.z⟩⟩

/-- Scalar multiple `v * s`. -/
def Vec3.scale (v : Vec3 K) (s : K) : Vec3 K := ⟨v.x * s, v.y * s, v.z * s⟩

/-- `Vector3::z()`, the `particle_tip` of sim.rs. -/
def Vec3.zAxis : Vec3 K := ⟨0, 0, 1⟩

/-- `nalgebra` quaternion `w + x i + y j + z k`; sim.rs only ever holds
unit quaternions (`UnitQuaternion`) in these. -/
structure Quat (K : Type) where
  w : K
  x : K
  y : K
  z : K

/-- Hamilton product. -/
def Quat.mul (a b : Quat K) : Quat K :=
  ⟨a.w * b.w - a.x * b.x - a.y * b.y - a.z * b.z,
   a.w * b.x + a.x * b.w + a.y * b.z - a.z * b.y,
   a.w * b.y - a.x * b.z + a.y * b.w + a.z * b.x,
   a.w * b.z + a.x * b.y - a.y * b.x + a.z * b.w⟩

instance : Mul (Quat K) := ⟨Quat.mul⟩

/-- `UnitQuaternion::identity()`. -/
def Quat.one : Quat K := ⟨1, 0, 0, 0⟩

/-- `UnitQuaternion::inverse()`: for unit quaternions this is the
conjugate, which is how nalgebra implements it. -/
def Quat.conj (q : Quat K) : Quat K := ⟨q.w, -q.x, -q.y, -q.z⟩

/-- Squared quaternion norm. -/
def Quat.normSq (q : Quat K) : K := q.w ^ 2 + q.x ^ 2 + q.y ^ 2 + q.z ^ 2

/-- Embed a vector as a pure quaternion. -/
def Quat.pureQ (v : Vec3 K) : Quat K := ⟨0, v.x, v.y, v.z⟩

/-- `UnitQuaternion * Vector3`: rotation of the vector, the sandwich
product `q v q⁻¹` (with `q⁻¹ = conj q` for unit `q`). -/
def Quat.rotate (q : Quat K) (v : Vec3 K) : Vec3 K :=
  let r := q * Quat.pureQ v * q.conj
  ⟨r.x, r.y, r.z⟩

/-- `UnitQuaternion::from_axis_angle(axis, angle)`:
`(cos(angle/2), sin(angle/2)·axis)`. -/
def Quat.fromAxisAngle (t : Trig K) (axis : Vec3 K) (angle : K) : Quat K :=
  ⟨t.cos (angle / 2), t.sin (angle / 2) * axis.x,
   t.sin (angle / 2) * axis.y, t.sin (angle / 2) * axis.z⟩

/-- `UnitQuaternion::from_euler_angles(roll, pitch, yaw)` as nalgebra
defines it: `R_z(yaw) * R_y(pitch) * R_x(roll)`. -/
def Quat.fromEulerAngles (t : Trig K) (roll pitch yaw : K) : Quat K :=
  Quat.fromAxisAngle t ⟨0, 0, 1⟩ yaw *
    (Quat.fromAxisAngle t ⟨0, 1, 0⟩ pitch * Quat.fromAxisAngle t ⟨1, 0, 0⟩ roll)

/-- `idek_basics::Array3D<f32>`. -/
structure Array3D (K : Type) where
  width : ℕ
  height : ℕ
  length : ℕ
  data : ℕ × ℕ × ℕ → K

/-- `Array3D::new`: zero-initialised grid. -/
def Array3D.new (w h l : ℕ) : Array3D K := ⟨w, h, l, fun _ => 0⟩

/-- Read `arr[pos]`. -/
def Array3D.get (a : Array3D K) (p : ℕ × ℕ × ℕ) : K := a.data p

/-- Write `arr[pos] = v`. -/
def Array3D.set (a : Array3D K) (p : ℕ × ℕ × ℕ) (v : K) : Array3D K :=
  { a with data := fun q => if q = p then v else a.data q }

/-- sim.rs `sample_array_isize`. -/
def sample_array_isize (arr : Array3D K) (p : ℤ × ℤ × ℤ) : Option K := do
  let px ← boundsZ p.1 arr.width
  let py ← boundsZ p.2.1 arr.height
  let pz ← boundsZ p.2.2 arr.length
  some (arr.get (px, py, pz))

/-- sim.rs `sample_array_vect`. -/
def sample_array_vect (arr : Array3D K) (v : Vec3 K) : Option (ℕ × ℕ × ℕ) := do
  let px ← boundsF v.x arr.width
  let py ← boundsF v.y arr.height
  let pz ← boundsF v.z arr.length
  some (px, py, pz)

/-- sim.rs `SlimeConfig` (`dive_rate` is present in the config but unused
by the stepping code). -/
structure SlimeConfig (K : Type) where
  sensor_spread : K
  turn_speed : K
  decay : K
  deposit_rate : K
  move_speed : K
  sample_dist : K
  dive_rate : K
  diffusion : K

/-- sim.rs `SlimeParticle`; `age` is a `u32`, modelled as `ℕ` (overflow
after 2^32 ticks is out of scope). -/
structure SlimeParticle (K : Type) where
  position : Vec3 K
  heading : Quat K
  origin : Vec3 K
  age : ℕ

/-- sim.rs `SlimeData`. -/
structure SlimeData (K : Type) where
  medium : Array3D K
  slime : List (SlimeParticle K)

/-- sim.rs `SlimeFactory` (after a successful `new`). -/
structure SlimeFactory (K : Type) where
  x : Uniform K
  y : Uniform K
  z : Uniform K
  theta : Uniform K
  rho : Uniform K

/-- sim.rs `SlimeFactory::new`; `pi` stands for `std::f32::consts::PI`.
`Uniform::new` panics (`none`) when an extent is zero (and for the angle
distributions when `pi ≤ 0`, which never happens for the real constant). -/
def SlimeFactory.new (width height length : ℕ) (pi : K) :
    Option (SlimeFactory K) := do
  let x ← Uniform.new 0 (width : K)
  let y ← Uniform.new 0 (height : K)
  let z ← Uniform.new 0 (length : K)
  let theta ← Uniform.new 0 pi
  let rho ← Uniform.new (-pi) pi
  some ⟨x, y, z, theta, rho⟩

/-- sim.rs `SlimeFactory::slime`: position = origin drawn uniformly per
axis (rng cursors `n`..`n+2`), heading from Euler angles (cursors `n+3`,
`n+4`), age 0. -/
def SlimeFactory.slime (f : SlimeFactory K) (t : Trig K) (rng : ℕ → K) (n : ℕ) :
    SlimeParticle K × ℕ :=
  let origin : Vec3 K := ⟨f.x.sample (rng n), f.y.sample (rng (n + 1)),
    f.z.sample (rng (n + 2))⟩
  let heading := Quat.fromEulerAngles t (f.theta.sample (rng (n + 3)))
    (f.rho.sample (rng (n + 4))) 0
  (⟨origin, heading, origin, 0⟩, n + 5)

/-- Spawn `n_particles` initial particles, threading the rng cursor. -/
def genParticles (f : SlimeFactory K) (t : Trig K) (rng : ℕ → K) :
    ℕ → ℕ → List (SlimeParticle K)
  | _, 0 => []
  | n, m + 1 =>
    let pn := f.slime t rng n
    pn.1 :: genParticles f t rng pn.2 m

/-- sim.rs `SlimeSim`. -/
structure SlimeSim (K : Type) where
  front : SlimeData K
  back : SlimeData K
  factory : SlimeFactory K

/-- sim.rs `SlimeSim::new`. -/
def SlimeSim.new (width height length n_particles : ℕ) (t : Trig K) (pi : K)
    (rng : ℕ → K) : Option (SlimeSim K) := do
  let factory ← SlimeFactory.new width height length pi
  let slime := genParticles factory t rng 0 n_particles
  let front : SlimeData K := ⟨Array3D.new width height length, slime⟩
  some ⟨front, front, factory⟩

/-- sim.rs `SlimeSim::frame`. -/
def SlimeSim.frame (s : SlimeSim K) : SlimeData K := s.front

/-- The 7-point offset list of sim.rs `step_medium`, in source order; an
entry `(i, j, k)` is applied as `(j + x, i + y, k + z)`. -/
def mediumOffsets : List (ℤ × ℤ × ℤ) :=
  [(0, 0, 0), (1, 0, 0), (-1, 0, 0), (0, 1, 0), (0, -1, 0), (0, 0, 1), (0, 0, -1)]

/-- sim.rs `step_medium` inner loop: accumulate `(sum, n_parts)` of the
present stencil samples around `(x, y, z)`. -/
def mediumAccum (m : Array3D K) (x y z : ℕ) : K × ℕ :=
  mediumOffsets.foldl
    (fun acc ijk =>
      match sample_array_isize m
          (ijk.2.1 + (x : ℤ), ijk.1 + (y : ℤ), ijk.2.2 + (z : ℤ)) with
      | some v => (acc.1 + v, acc.2 + 1)
      | none => acc)
    (0, 0)

/-- sim.rs `step_medium` body for one cell: average the present stencil
samples, blend the centre toward the average by `diffusion` (no dt),
scale by `1 − decay` (no dt). -/
def mediumCell (cfg : SlimeConfig K) (m : Array3D K) (x y z : ℕ) : K :=
  let sn := mediumAccum m x y z
  let avg := sn.1 / (sn.2 : K)
  let center := m.get (x, y, z)
  let diffuse := mix center avg cfg.diffusion
  (1 - cfg.decay) * diffuse

/-- sim.rs `step_medium`: write every in-grid cell of the back medium
from the front medium; the front medium is not touched. -/
def step_medium (cfg : SlimeConfig K) (front back : Array3D K) : Array3D K :=
  { back with
    data := fun p =>
      if p.1 < front.width ∧ p.2.1 < front.height ∧ p.2.2 < front.length then
        mediumCell cfg front p.1 p.2.1 p.2.2
      else back.data p }

/-- The match inside sim.rs `rotsample`: turn on (Greater, Greater),
inverse turn on (Less, Less), identity otherwise. -/
def rotsampleDecision (turn unit_rot : Quat K) :
    Option Ordering → Option Ordering → Quat K
  | some .gt, some .gt => turn
  | some .lt, some .lt => turn.conj
  | _, _ => unit_rot

/-- The sensor position of the `sample` closure in sim.rs
`step_particles`: the particle position plus
`rot * part.heading * particle_tip * cfg.sample_dist`. -/
def sensorPos (cfg : SlimeConfig K) (f : SlimeParticle K) (rot : Quat K) :
    Vec3 K :=
  f.position + ((rot * f.heading).rotate Vec3.zAxis).scale cfg.sample_dist

/-- The `sample` closure of sim.rs `step_particles`: sensor position
bounds-checked against the back medium, value read from the front
medium. -/
def sample (cfg : SlimeConfig K) (frontM backM : Array3D K)
    (f : SlimeParticle K) (rot : Quat K) : Option K :=
  (sample_array_vect backM (sensorPos cfg f rot)).map fun p => frontM.get p

/-- The `rotsample` closure of sim.rs `step_particles`: sample left
(`sensor`), centre (identity) and right (`sensor.inverse()`), compare,
and pick the turn. -/
def rotsample (cfg : SlimeConfig K) (frontM backM : Array3D K)
    (f : SlimeParticle K) (sensor turn : Quat K) : Quat K :=
  let left := sample cfg frontM backM f sensor
  let center := sample cfg frontM backM f Quat.one
  let right := sample cfg frontM backM f sensor.conj
  rotsampleDecision turn Quat.one (ocmp left center) (ocmp center right)

/-- The total steering decision of the sim.rs loop body: the yaw
rotsample times the pitch rotsample. -/
def totalRotation (cfg : SlimeConfig K) (yawS pitchS yawT pitchT : Quat K)
    (frontM backM : Array3D K) (f : SlimeParticle K) : Quat K :=
  rotsample cfg frontM backM f yawS yawT *
    rotsample cfg frontM backM f pitchS pitchT

/-- The integrated heading of the sim.rs loop body:
`rotation * f.heading`. -/
def newHeading (cfg : SlimeConfig K) (yawS pitchS yawT pitchT : Quat K)
    (frontM backM : Array3D K) (f : SlimeParticle K) : Quat K :=
  totalRotation cfg yawS pitchS yawT pitchT frontM backM f * f.heading

/-- The integrated position of the sim.rs loop body:
`f.position + heading * particle_tip * move_speed * dt`. -/
def newPosition (cfg : SlimeConfig K) (dt : K) (yawS pitchS yawT pitchT : Quat K)
    (frontM backM : Array3D K) (f : SlimeParticle K) : Vec3 K :=
  f.position + ((newHeading cfg yawS pitchS yawT pitchT frontM backM f).rotate
    Vec3.zAxis).scale (cfg.move_speed * dt)

/-- sim.rs `step_particles` loop body for one front particle. -/
def particleBody (factory : SlimeFactory K) (t : Trig K) (cfg : SlimeConfig K)
    (dt : K) (yawS pitchS yawT pitchT : Quat K) (frontM backM : Array3D K)
    (f : SlimeParticle K) (rng : ℕ → K) (n : ℕ) :
    SlimeParticle K × Array3D K × ℕ :=
  let heading := newHeading cfg yawS pitchS yawT pitchT frontM backM f
  let position := newPosition cfg dt yawS pitchS yawT pitchT frontM backM f
  let age := f.age + 1
  match sample_array_vect backM position with
  | some pos =>
    (⟨position, heading, f.origin, age⟩,
      backM.set pos (backM.get pos + cfg.deposit_rate * dt), n)
  | none =>
    let pn := factory.slime t rng n
    (pn.1, backM, pn.2)

/-- The per-particle loop of sim.rs `step_particles` (zip of back slots
with front particles; both lists always have equal length). -/
def particleLoop (factory : SlimeFactory K) (t : Trig K) (cfg : SlimeConfig K)
    (dt : K) (yawS pitchS yawT pitchT : Quat K) (frontM : Array3D K) :
    List (SlimeParticle K) → Array3D K → (ℕ → K) → ℕ →
    List (SlimeParticle K) × Array3D K × ℕ
  | [], backM, _, n => ([], backM, n)
  | f :: fs, backM, rng, n =>
    let bmn := particleBody factory t cfg dt yawS pitchS yawT pitchT frontM backM f rng n
    let rest := particleLoop factory t cfg dt yawS pitchS yawT pitchT frontM fs bmn.2.1 rng bmn.2.2
    (bmn.1 :: rest.1, rest.2.1, rest.2.2)

/-- sim.rs `step_particles`: precompute the yaw/pitch sensor rotations
(angle `sensor_spread`, not scaled by dt) and the yaw/pitch turn
rotations (angle `turn_speed · dt`), then run the per-particle loop. -/
def step_particles (factory : SlimeFactory K) (t : Trig K) (cfg : SlimeConfig K)
    (dt : K) (front : SlimeData K) (backM : Array3D K) (rng : ℕ → K) (n : ℕ) :
    List (SlimeParticle K) × Array3D K × ℕ :=
  let yawS := Quat.fromAxisAngle t ⟨1, 0, 0⟩ cfg.sensor_spread
  let pitchS := Quat.fromAxisAngle t ⟨0, 1, 0⟩ cfg.sensor_spread
  let yawT := Quat.fromAxisAngle t ⟨1, 0, 0⟩ (cfg.turn_speed * dt)
  let pitchT := Quat.fromAxisAngle t ⟨0, 1, 0⟩ (cfg.turn_speed * dt)
  particleLoop factory t cfg dt yawS pitchS yawT pitchT front.medium front.slime backM rng n

/-- sim.rs `SlimeSim::step`: relax the medium, step the particles, swap
the buffers. -/
def SlimeSim.step (t : Trig K) (cfg : SlimeConfig K) (dt : K) (rng : ℕ → K)
    (sim : SlimeSim K) : SlimeSim K :=
  let backM := step_medium cfg sim.front.medium sim.back.medium
  let out := step_particles sim.factory t cfg dt sim.front backM rng 0
  { front := ⟨out.2.1, out.1⟩, back := sim.front, factory := sim.factory }

end Slime3

namespace Claims

open Slime

/-- Concrete 2D config for the sensing analysis: right-angle sensor
spread and turn speed (so the rotations have exact cosine/sine), unit
speeds, no decay or diffusion. -/
noncomputable def cfgA : Slime2.SlimeConfig ℝ :=
  { sensor_spread := Real.pi / 2, turn_speed := Real.pi / 2, decay := 0,
    deposit_rate := 1, move_speed := 1, sample_dist := 1, diffusion := 0 }

/-- Concrete 3×3 front medium: concentration 1 at cell (1,1), 0
elsewhere. -/
def frontA : Slime2.Array2D ℝ := ⟨3, 3, fun p => if p = (1, 1) then 1 else 0⟩

/-- Concrete all-zero 3×3 back medium. -/
def backA : Slime2.Array2D ℝ := ⟨3, 3, fun _ => 0⟩

/-- Concrete agent at (0,1) heading straight up (0,1): its left sensor
(90° counterclockwise) points at x = −1, off the grid. -/
def agentA : Slime2.SlimeParticle ℝ := ⟨⟨0, 1⟩, ⟨0, 1⟩⟩

/-- A factory for the 3×3 grid (never consulted on the analysed path). -/
def factoryA : Slime2.SlimeFactory ℝ := ⟨⟨0, 3⟩, ⟨0, 3⟩, ⟨0, 7⟩⟩

end Claims


namespace Claims2

open Slime

/-- The in-grid samples of the 3×3 window centred at `(x, y)` (the window
main.rs `diffuse_step` actually scans), as the list of present values. -/
def mooreWindow {K : Type} [LinearOrderedField K] (m : Slime2.Array2D K)
    (x y : ℕ) : List K :=
  Slime2.diffuseOffsets.filterMap
    (fun ij => Slime2.sample_array_isize m (ij.2 + (x : ℤ)) (ij.1 + (y : ℤ)))

/-- The 2D relaxation as claim C2 states it: average over the cell and
its axis-aligned in-grid neighbours only (centre + up to 4), blended by
`diffusion·dt`, scaled by `1 − decay·dt`.  Written from the spec's words,
to be compared with the code's `diffuse_step`. -/
def relaxCellAxis {K : Type} [LinearOrderedField K] (cfg : Slime2.SlimeConfig K)
    (dt : K) (m : Slime2.Array2D K) (x y : ℕ) : K :=
  let vals := ([(0, 0), (1, 0), (-1, 0), (0, 1), (0, -1)] : List (ℤ × ℤ)).filterMap
    (fun d => Slime2.sample_array_isize m ((x : ℤ) + d.1) ((y : ℤ) + d.2))
  (1 - cfg.decay * dt) *
    Slime.mix (m.get (x, y)) (vals.sum / (vals.length : K)) (cfg.diffusion * dt)

/-- The in-grid samples of the 7-point axis-aligned stencil centred at
`(x, y, z)` scanned by sim.rs `step_medium`. -/
def axisWindow3 {K : Type} [LinearOrderedField K] (m : Slime3.Array3D K)
    (x y z : ℕ) : List K :=
  Slime3.mediumOffsets.filterMap
    (fun ijk => Slime3.sample_array_isize m
      (ijk.2.1 + (x : ℤ), ijk.1 + (y : ℤ), ijk.2.2 + (z : ℤ)))

/-- Concrete 2D config for the diffusion analysis: full diffusion, no
decay. -/
def cfgB : Slime2.SlimeConfig ℚ :=
  { sensor_spread := 0, turn_speed := 0, decay := 0, deposit_rate := 0,
    move_speed := 0, sample_dist := 0, diffusion := 1 }

/-- Concrete 2×2 front medium: concentration 1 at the cell (1,1), which
is a diagonal (not axis-aligned) neighbour of (0,0). -/
def frontB : Slime2.Array2D ℚ := ⟨2, 2, fun p => if p = (1, 1) then 1 else 0⟩

/-- Concrete all-zero 2×2 back medium. -/
def backB : Slime2.Array2D ℚ := ⟨2, 2, fun _ => 0⟩

end Claims2


namespace Claims2

/-- Concrete 3D config with no decay or diffusion. -/
def cfg3B : Slime3.SlimeConfig ℚ :=
  { sensor_spread := 0, turn_speed := 0, decay := 0, deposit_rate := 0,
    move_speed := 0, sample_dist := 0, dive_rate := 0, diffusion := 0 }

/-- Concrete 1×1×1 front medium, all zero. -/
def front3B : Slime3.Array3D ℚ := ⟨1, 1, 1, fun _ => 0⟩

/-- Concrete 1×1×1 back medium, all zero. -/
def back3B : Slime3.Array3D ℚ := ⟨1, 1, 1, fun _ => 0⟩

end Claims2


namespace Claims3

/-- A rational stand-in trig pair (its values are irrelevant to the
construction path analysed here). -/
def trigQ : Slime.Trig ℚ := ⟨fun _ => 1, fun _ => 0⟩

/-- A concrete rng stream. -/
def rng0 : ℕ → ℚ := fun _ => 1 / 2

end Claims3


namespace Claims4

open Slime

/-- The left-sensor sample position as claim C4 states it: the heading
rotated by +sensor_spread — an angle independent of dt — then projected
forward by sample_dist.  Written from the spec's words, for comparison
with the code. -/
noncomputable def specLeftSensorPos (cfg : Slime2.SlimeConfig ℝ)
    (f : Slime2.SlimeParticle ℝ) : Slime2.Vec2 ℝ :=
  f.position +
    ((Slime2.Rot2.mk (Real.cos cfg.sensor_spread) (Real.sin cfg.sensor_spread)).apply
      f.heading).scale cfg.sample_dist

/-- The three sensor sample positions exactly as main.rs `particle_step`
builds them: rotations `from_scaled_axis(sensor_spread * dt)`, identity,
and the inverse of the first. -/
noncomputable def codeSensorTriple2 (cfg : Slime2.SlimeConfig ℝ) (dt : ℝ)
    (f : Slime2.SlimeParticle ℝ) :
    Slime2.Vec2 ℝ × Slime2.Vec2 ℝ × Slime2.Vec2 ℝ :=
  let lsr := Slime2.Rot2.fromScaledAxis realTrig (cfg.sensor_spread * dt)
  let rsr := lsr.inverse
  (Slime2.sensorPos cfg f lsr, Slime2.sensorPos cfg f Slime2.Rot2.identity,
    Slime2.sensorPos cfg f rsr)

/-- The three sample positions as the amended claim states them: heading
rotated by the angles `+(sensor_spread·dt)`, `0`, `−(sensor_spread·dt)`
and projected forward by sample_dist. -/
noncomputable def specSensorTriple2 (cfg : Slime2.SlimeConfig ℝ) (dt : ℝ)
    (f : Slime2.SlimeParticle ℝ) :
    Slime2.Vec2 ℝ × Slime2.Vec2 ℝ × Slime2.Vec2 ℝ :=
  (f.position +
     ((Slime2.Rot2.mk (Real.cos (cfg.sensor_spread * dt))
        (Real.sin (cfg.sensor_spread * dt))).apply f.heading).scale cfg.sample_dist,
   f.position + f.heading.scale cfg.sample_dist,
   f.position +
     ((Slime2.Rot2.mk (Real.cos (-(cfg.sensor_spread * dt)))
        (Real.sin (-(cfg.sensor_spread * dt)))).apply f.heading).scale cfg.sample_dist)

/-- Concrete config for the sensing-angle analysis: unit sensor spread
and sample distance. -/
noncomputable def cfgC : Slime2.SlimeConfig ℝ :=
  { sensor_spread := 1, turn_speed := 0, decay := 0, deposit_rate := 0,
    move_speed := 0, sample_dist := 1, diffusion := 0 }

/-- Concrete particle at the origin heading along the x axis. -/
def fC : Slime2.SlimeParticle ℝ := ⟨⟨0, 0⟩, ⟨1, 0⟩⟩

end Claims4


namespace Claims5

/-- Concrete config with diffusion rate 2 (so `diffusion·dt = 2 > 1`),
no decay, no deposits. -/
def cfgD1 : Slime2.SlimeConfig ℚ :=
  { sensor_spread := 0, turn_speed := 0, decay := 0, deposit_rate := 0,
    move_speed := 0, sample_dist := 0, diffusion := 2 }

/-- Concrete config with decay rate 1 (≤ 1, but `decay·dt = 2` at
dt = 2), no diffusion, no deposits. -/
def cfgD2 : Slime2.SlimeConfig ℚ :=
  { sensor_spread := 0, turn_speed := 0, decay := 1, deposit_rate := 0,
    move_speed := 0, sample_dist := 0, diffusion := 0 }

/-- Concrete 3×1 front medium with a unit spike at the middle cell. -/
def frontD : Slime2.Array2D ℚ := ⟨3, 1, fun p => if p = (1, 0) then 1 else 0⟩

/-- Concrete all-zero 3×1 back medium. -/
def backD : Slime2.Array2D ℚ := ⟨3, 1, fun _ => 0⟩

/-- A concrete 1×1 simulation state with no agents and all-zero media. -/
def simE : Slime2.SlimeSim ℚ :=
  ⟨⟨⟨1, 1, fun _ => 0⟩, []⟩, ⟨⟨1, 1, fun _ => 0⟩, []⟩, ⟨⟨0, 1⟩, ⟨0, 1⟩, ⟨0, 7⟩⟩⟩

end Claims5


namespace Claims6

/-- Concrete 3D config: zero sensing distance, unit move speed and
deposit rate. -/
def cfg3C : Slime3.SlimeConfig ℚ :=
  { sensor_spread := 0, turn_speed := 0, decay := 0, deposit_rate := 1,
    move_speed := 1, sample_dist := 0, dive_rate := 0, diffusion := 0 }

/-- Like `cfg3C` but with zero move speed (the agent stays in its
cell). -/
def cfg3D : Slime3.SlimeConfig ℚ := { cfg3C with move_speed := 0 }

/-- Concrete all-zero 1×1×1 medium. -/
def medF : Slime3.Array3D ℚ := ⟨1, 1, 1, fun _ => 0⟩

/-- Concrete particle in the only cell, identity heading, age 5. -/
def fF : Slime3.SlimeParticle ℚ := ⟨⟨0, 0, 0⟩, ⟨1, 0, 0, 0⟩, ⟨0, 0, 0⟩, 5⟩

/-- The identity quaternion as a concrete rotation argument. -/
def qOne : Slime3.Quat ℚ := ⟨1, 0, 0, 0⟩

/-- The factory produced by `SlimeFactory::new 1 1 1` (with stand-in
π = 3). -/
def facF : Slime3.SlimeFactory ℚ := ⟨⟨0, 1⟩, ⟨0, 1⟩, ⟨0, 1⟩, ⟨0, 3⟩, ⟨-3, 3⟩⟩

end Claims6


namespace Claims8

/-- The C8 scenario config: move_speed 1, deposit_rate 1, decay 0,
diffusion 0; the sensing parameters are left free (the claim does not
fix them). -/
def cfgS (spread turn dist : ℚ) : Slime2.SlimeConfig ℚ :=
  { sensor_spread := spread, turn_speed := turn, decay := 0, deposit_rate := 1,
    move_speed := 1, sample_dist := dist, diffusion := 0 }

/-- The scenario agent: position (5,5), heading (1,0). -/
def agentS : Slime2.SlimeParticle ℚ := ⟨⟨5, 5⟩, ⟨1, 0⟩⟩

/-- All-zero 10×10 medium. -/
def med10 : Slime2.Array2D ℚ := ⟨10, 10, fun _ => 0⟩

/-- The scenario simulation state: one agent, all-zero media, back a
clone of front. -/
def simS : Slime2.SlimeSim ℚ :=
  ⟨⟨med10, [agentS]⟩, ⟨med10, [agentS]⟩, ⟨⟨0, 10⟩, ⟨0, 10⟩, ⟨0, 7⟩⟩⟩

end Claims8


namespace Claims9

/-- Every particle of a 2D buffer has a unit heading (squared norm 1). -/
def allUnit2 {K : Type} [LinearOrderedField K]
    (ps : List (Slime2.SlimeParticle K)) : Prop :=
  ∀ f ∈ ps, f.heading.normSq = 1

/-- Both buffers of a 2D simulation have unit headings throughout. -/
def allUnitSim2 {K : Type} [LinearOrderedField K] (sim : Slime2.SlimeSim K) :
    Prop :=
  allUnit2 sim.front.slime ∧ allUnit2 sim.back.slime

/-- m-fold iteration of the 2D step with a per-tick rng family. -/
def stepN {K : Type} [LinearOrderedField K] [FloorRing K] (t : Slime.Trig K)
    (cfg : Slime2.SlimeConfig K) (dt : K) (rngs : ℕ → ℕ → K) :
    ℕ → Slime2.SlimeSim K → Slime2.SlimeSim K
  | 0, sim => sim
  | m + 1, sim => stepN t cfg dt rngs m (Slime2.SlimeSim.step t cfg dt (rngs m) sim)

/-- Concrete real factories and inputs for the witness. -/
noncomputable def facR : Slime2.SlimeFactory ℝ := ⟨⟨0, 1⟩, ⟨0, 1⟩, ⟨0, 7⟩⟩

/-- Concrete real 3D factory for the witness. -/
noncomputable def fac3R : Slime3.SlimeFactory ℝ :=
  ⟨⟨0, 1⟩, ⟨0, 1⟩, ⟨0, 1⟩, ⟨0, 4⟩, ⟨-4, 4⟩⟩

/-- Concrete real rng stream. -/
noncomputable def rngR : ℕ → ℝ := fun _ => 1 / 2

/-- Concrete real 3D config. -/
noncomputable def cfg3R : Slime3.SlimeConfig ℝ :=
  { sensor_spread := 0, turn_speed := 0, decay := 0, deposit_rate := 0,
    move_speed := 0, sample_dist := 0, dive_rate := 0, diffusion := 0 }

/-- Concrete real 3D medium and particle. -/
noncomputable def med3R : Slime3.Array3D ℝ := ⟨1, 1, 1, fun _ => 0⟩

/-- Concrete real particle with identity heading. -/
noncomputable def f3R : Slime3.SlimeParticle ℝ := ⟨⟨0, 0, 0⟩, ⟨1, 0, 0, 0⟩, ⟨0, 0, 0⟩, 0⟩

end Claims9


namespace Claims9

/-- Concrete real 2D config for the witness. -/
noncomputable def cfg2R : Slime2.SlimeConfig ℝ :=
  { sensor_spread := 0, turn_speed := 0, decay := 0, deposit_rate := 0,
    move_speed := 0, sample_dist := 0, diffusion := 0 }

/-- Concrete real per-tick rng family. -/
noncomputable def rngsR : ℕ → ℕ → ℝ := fun _ _ => 1 / 2

end Claims9

-- THEOREMS

namespace Slime2

variable {K : Type} [LinearOrderedField K]

@[simp] theorem vec2_add_def (a b : Vec2 K) :
    a + b = ⟨a.x + b.x, a.y + b.y⟩ := rfl

end Slime2

namespace Slime3

variable {K : Type} [LinearOrderedField K]

@[simp] theorem Quat.mul_def (a b : Quat K) : a * b = Quat.mul a b := rfl

@[simp] theorem vec3_add_def (a b : Vec3 K) :
    a + b = ⟨a.x + b.x, a.y + b.y, a.z + b.z⟩ := rfl

end Slime3

namespace Claims

open Slime

/-- C1 (counterexample): an absent sensor sample does not send the agent
straight.  On a 3×3 grid with the agent at (0,1) heading (0,1), the left
sensor falls off the grid (absent), the centre sensor reads 0 and the
right sensor reads 1; `Option`'s ordering makes the absent left sample
compare Less (not indeterminate), center < right gives Less, and the
(Less, Less) arm turns the agent right: its heading after the step is
(1,0), not the unchanged (0,1) the claim requires. -/
theorem absent_left_sensor_turns_right :
    Slime2.sensorSample cfgA frontA backA agentA
        (Slime2.Rot2.fromScaledAxis realTrig (cfgA.sensor_spread * 1)) = none
    ∧ (Slime2.particle_step factoryA realTrig cfgA 1
        ⟨frontA, [agentA]⟩ backA (fun _ => 0) 0).1 =
      [⟨⟨1, 1⟩, ⟨1, 0⟩⟩]
    ∧ (⟨1, 0⟩ : Slime2.Vec2 ℝ) ≠ agentA.heading := by
  refine ⟨?_, ?_, ?_⟩
  · simp [Slime2.sensorSample, Slime2.sensorPos, Slime2.Rot2.fromScaledAxis,
      realTrig, cfgA, frontA, backA, agentA, Slime2.Rot2.apply,
      Slime2.Vec2.scale, Slime2.sample_array_vect, Slime.boundsF,
      Slime2.Array2D.get, mul_one, Real.cos_pi_div_two, Real.sin_pi_div_two]
  · simp [Slime2.particle_step, Slime2.particleLoop, Slime2.particleBody,
      Slime2.decision, Slime2.newHeading, Slime2.newPosition,
      Slime2.sensorSample, Slime2.sensorPos, Slime2.Rot2.fromScaledAxis,
      Slime2.Rot2.inverse, Slime2.Rot2.identity, Slime2.Rot2.apply,
      realTrig, cfgA, frontA, backA, agentA, factoryA, Slime2.Vec2.scale,
      Slime2.sample_array_vect, Slime.boundsF, Slime2.Array2D.get,
      Slime2.Array2D.set, Slime.ocmp, Slime.fcmp, Slime2.steer, mul_one,
      Real.cos_pi_div_two, Real.sin_pi_div_two]
    norm_num
  · simp [agentA]

end Claims

namespace Claims

open Slime

/-- C1 (amended): in both engines the Decide match sends any
indeterminate three-way comparison to the identity rotation; but an
absent sensor sample does not make the comparison indeterminate —
Option's derived ordering puts an absent value strictly below any
present one — so with the left sample absent and present values
center < right, the selected rotation is the right turn, not the
identity. -/
theorem steer_indeterminate_goes_straight {K : Type} [LinearOrderedField K]
    (ltr rtr u : Slime2.Rot2 K) (turn u3 : Slime3.Quat K) (c r : K)
    (hcr : c < r) :
    (∀ lc cr, lc = none ∨ cr = none →
      Slime2.steer ltr rtr u lc cr = u ∧
      Slime3.rotsampleDecision turn u3 lc cr = u3)
    ∧ (∀ v : K, ocmp none (some v) = some Ordering.lt)
    ∧ Slime2.steer ltr rtr u (ocmp none (some c)) (ocmp (some c) (some r)) = rtr
    ∧ Slime3.rotsampleDecision turn u3 (ocmp none (some c))
        (ocmp (some c) (some r)) = turn.conj := by
  refine ⟨?_, fun v => rfl, ?_, ?_⟩
  · rintro lc cr (rfl | rfl)
    · refine ⟨?_, ?_⟩ <;>
        (rcases cr with _ | o
         · rfl
         · cases o <;> rfl)
    · refine ⟨?_, ?_⟩ <;>
        (rcases lc with _ | o
         · rfl
         · cases o <;> rfl)
  · simp [Slime.ocmp, Slime.fcmp, hcr, Slime2.steer]
  · simp [Slime.ocmp, Slime.fcmp, hcr, Slime3.rotsampleDecision]

/-- Witness for the amended C1 theorem at concrete rational inputs. -/
theorem steer_indeterminate_goes_straight_witness :
    (0 : ℚ) < 1 ∧
    ((∀ lc cr, lc = none ∨ cr = none →
      Slime2.steer (⟨0, 1⟩ : Slime2.Rot2 ℚ) ⟨0, -1⟩ ⟨1, 0⟩ lc cr = ⟨1, 0⟩ ∧
      Slime3.rotsampleDecision (⟨0, 1, 0, 0⟩ : Slime3.Quat ℚ) ⟨1, 0, 0, 0⟩ lc cr
        = ⟨1, 0, 0, 0⟩)
    ∧ (∀ v : ℚ, ocmp none (some v) = some Ordering.lt)
    ∧ Slime2.steer (⟨0, 1⟩ : Slime2.Rot2 ℚ) ⟨0, -1⟩ ⟨1, 0⟩
        (ocmp none (some (0 : ℚ))) (ocmp (some (0 : ℚ)) (some 1)) = ⟨0, -1⟩
    ∧ Slime3.rotsampleDecision (⟨0, 1, 0, 0⟩ : Slime3.Quat ℚ) ⟨1, 0, 0, 0⟩
        (ocmp none (some (0 : ℚ))) (ocmp (some (0 : ℚ)) (some 1))
        = Slime3.Quat.conj ⟨0, 1, 0, 0⟩) :=
  ⟨by norm_num,
    steer_indeterminate_goes_straight _ _ _ _ _ 0 1 (by norm_num)⟩

end Claims

namespace Claims2

open Slime

/-- Folding the (sum, count) accumulator over option samples equals the
sum and length of the present samples. -/
theorem accum_go {K : Type} [LinearOrderedField K] {A : Type}
    (g : A → Option K) (l : List A) (s : K) (n : ℕ) :
    l.foldl (fun acc a => match g a with
      | some v => (acc.1 + v, acc.2 + 1)
      | none => acc) (s, n)
    = (s + (l.filterMap g).sum, n + (l.filterMap g).length) := by
  induction l generalizing s n with
  | nil => simp
  | cons a l ih =>
    cases h : g a with
    | none => simp [h, ih]
    | some v =>
      simp only [List.foldl_cons, List.filterMap_cons, h, List.sum_cons,
        List.length_cons, ih, Prod.mk.injEq]
      exact ⟨by ring, by omega⟩

/-- main.rs `diffuse_step`'s accumulator computes the sum and count of
the present 3×3 window samples. -/
theorem diffuseAccum_eq {K : Type} [LinearOrderedField K]
    (m : Slime2.Array2D K) (x y : ℕ) :
    Slime2.diffuseAccum m x y = ((mooreWindow m x y).sum, (mooreWindow m x y).length) := by
  have h := accum_go
    (fun ij : ℤ × ℤ => Slime2.sample_array_isize m (ij.2 + (x : ℤ)) (ij.1 + (y : ℤ)))
    Slime2.diffuseOffsets 0 0
  simpa [Slime2.diffuseAccum, mooreWindow] using h

/-- sim.rs `step_medium`'s accumulator computes the sum and count of the
present 7-point stencil samples. -/
theorem mediumAccum_eq {K : Type} [LinearOrderedField K]
    (m : Slime3.Array3D K) (x y z : ℕ) :
    Slime3.mediumAccum m x y z
      = ((axisWindow3 m x y z).sum, (axisWindow3 m x y z).length) := by
  have h := accum_go
    (fun ijk : ℤ × ℤ × ℤ => Slime3.sample_array_isize m
      (ijk.2.1 + (x : ℤ), ijk.1 + (y : ℤ), ijk.2.2 + (z : ℤ)))
    Slime3.mediumOffsets 0 0
  simpa [Slime3.mediumAccum, axisWindow3] using h

end Claims2

namespace Claims2

open Slime

/-- C2 (counterexample): the 2D relaxation is not the axis-aligned
4-neighbourhood average the claim describes — its window includes the
diagonals.  On a 2×2 grid whose only mass sits at (1,1), a diagonal
neighbour of (0,0), with `diffusion·dt = 1` and no decay, the code
writes 1/4 into back cell (0,0), while the claimed axis-aligned average
yields 0 there. -/
theorem diffuse_step_includes_diagonals :
    (Slime2.diffuse_step cfgB 1 frontB backB).get (0, 0) = 1 / 4
    ∧ relaxCellAxis cfgB 1 frontB 0 0 = 0
    ∧ (1 / 4 : ℚ) ≠ 0 := by
  refine ⟨?_, ?_, by norm_num⟩
  · norm_num [Slime2.diffuse_step, Slime2.diffuseCell, Slime2.diffuseAccum,
      Slime2.diffuseOffsets, Slime2.sample_array_isize, Slime.boundsZ,
      Slime2.Array2D.get, Slime.mix, cfgB, frontB, backB]
  · norm_num [relaxCellAxis, List.filterMap_cons, Slime2.sample_array_isize,
      Slime.boundsZ, Slime2.Array2D.get, Slime.mix, cfgB, frontB, Option.bind]

/-- C2 (amended): one relaxation pass writes, for every in-grid cell,
the cell's front value blended toward the average of the present window
samples and then decayed — where the 2D window is the full 3×3
neighbourhood (diagonals included), not the axis-aligned 4-neighbourhood,
and the 3D stencil is the centre + 6 axis-aligned neighbours; boundary
cells divide by the count of present samples only, with no wraparound;
the blend factor is `diffusion·dt` and the decay factor `1 − decay·dt`
in the time-scaled 2D variant, `diffusion` and `1 − decay` in 3D.  Cells
outside the grid keep the back buffer's previous contents; the pass
reads only the front buffer, which it cannot mutate (the embedded
relaxation returns a fresh back buffer). -/
theorem relaxation_pass_formula {K : Type} [LinearOrderedField K]
    (cfg : Slime2.SlimeConfig K) (cfg3 : Slime3.SlimeConfig K) (dt : K)
    (front back : Slime2.Array2D K) (front3 back3 : Slime3.Array3D K) :
    (∀ x y, x < front.width → y < front.height →
      (Slime2.diffuse_step cfg dt front back).get (x, y)
        = (1 - cfg.decay * dt) *
            Slime.mix (front.get (x, y))
              ((mooreWindow front x y).sum / ((mooreWindow front x y).length : K))
              (cfg.diffusion * dt))
    ∧ (∀ p, ¬(p.1 < front.width ∧ p.2 < front.height) →
        (Slime2.diffuse_step cfg dt front back).get p = back.get p)
    ∧ (∀ x y z, x < front3.width → y < front3.height → z < front3.length →
      (Slime3.step_medium cfg3 front3 back3).get (x, y, z)
        = (1 - cfg3.decay) *
            Slime.mix (front3.get (x, y, z))
              ((axisWindow3 front3 x y z).sum / ((axisWindow3 front3 x y z).length : K))
              cfg3.diffusion)
    ∧ (∀ p, ¬(p.1 < front3.width ∧ p.2.1 < front3.height ∧ p.2.2 < front3.length) →
        (Slime3.step_medium cfg3 front3 back3).get p = back3.get p) := by
  refine ⟨?_, ?_, ?_, ?_⟩
  · intro x y hx hy
    simp [Slime2.diffuse_step, Slime2.diffuseCell, Slime2.Array2D.get, hx, hy,
      diffuseAccum_eq]
  · intro p hp
    simp [Slime2.diffuse_step, Slime2.Array2D.get, hp]
  · intro x y z hx hy hz
    simp [Slime3.step_medium, Slime3.mediumCell, Slime3.Array3D.get, hx, hy, hz,
      mediumAccum_eq]
  · intro p hp
    simp [Slime3.step_medium, Slime3.Array3D.get, hp]

/-- Witness for the amended C2 theorem at concrete inputs. -/
theorem relaxation_pass_formula_witness :
    (0 < frontB.width ∧ 0 < frontB.height) ∧
    (Slime2.diffuse_step cfgB 1 frontB backB).get (0, 0)
      = (1 - cfgB.decay * 1) *
          Slime.mix (frontB.get (0, 0))
            ((mooreWindow frontB 0 0).sum / ((mooreWindow frontB 0 0).length : ℚ))
            (cfgB.diffusion * 1) :=
  ⟨⟨by norm_num [frontB], by norm_num [frontB]⟩,
    (relaxation_pass_formula cfgB cfg3B 1 frontB backB front3B back3B).1 0 0
      (by norm_num [frontB]) (by norm_num [frontB])⟩

end Claims2

namespace Claims3

open Slime

/-- Any value produced by the 2D bounds-checked signed read is a grid
value. -/
theorem sample_array_isize_some_val {K : Type} [LinearOrderedField K]
    (arr : Slime2.Array2D K) (x y : ℤ) (v : K)
    (h : Slime2.sample_array_isize arr x y = some v) :
    ∃ p, arr.get p = v := by
  unfold Slime2.sample_array_isize at h
  cases hb1 : Slime.boundsZ x arr.width with
  | none => simp [hb1] at h
  | some px =>
    cases hb2 : Slime.boundsZ y arr.height with
    | none => simp [hb1, hb2] at h
    | some py =>
      simp only [hb1, hb2, Option.bind_some] at h
      exact ⟨(px, py), Option.some_inj.mp h⟩

/-- Any value produced by the 3D bounds-checked signed read is a grid
value. -/
theorem sample_array_isize3_some_val {K : Type} [LinearOrderedField K]
    (arr : Slime3.Array3D K) (p : ℤ × ℤ × ℤ) (v : K)
    (h : Slime3.sample_array_isize arr p = some v) :
    ∃ q, arr.get q = v := by
  unfold Slime3.sample_array_isize at h
  cases hb1 : Slime.boundsZ p.1 arr.width with
  | none => simp [hb1] at h
  | some px =>
    cases hb2 : Slime.boundsZ p.2.1 arr.height with
    | none => simp [hb1, hb2] at h
    | some py =>
      cases hb3 : Slime.boundsZ p.2.2 arr.length with
      | none => simp [hb1, hb2, hb3] at h
      | some pz =>
        simp only [hb1, hb2, hb3, Option.bind_some] at h
        exact ⟨(px, py, pz), Option.some_inj.mp h⟩

/-- C3 (counterexample): constructing a simulation over a zero-size grid
is fatal: `SlimeFactory::new` calls `Uniform::new(0.0, 0.0)` for the
zero axis, which panics in rand (`low >= high`) before any stepping —
modelled by the construction returning `none`.  Shown for a zero width
in both the 2D and the 3D engine. -/
theorem zero_extent_construction_panics :
    Slime2.SlimeSim.new 0 10 5 trigQ 7 rng0 = none
    ∧ Slime3.SlimeSim.new 0 10 10 5 trigQ 3 rng0 = none := by
  constructor
  · norm_num [Slime2.SlimeSim.new, Slime2.SlimeFactory.new, Slime.Uniform.new]
  · norm_num [Slime3.SlimeSim.new, Slime3.SlimeFactory.new, Slime.Uniform.new]

end Claims3

namespace Claims3

open Slime

/-- C3 (amended): zero agents are degenerate but not fatal — construction
succeeds, the agent list is empty, and a step leaves the frame empty (no
agents, all-zero medium) in both engines; but a zero-size grid is fatal
at construction: `SlimeFactory::new` hands `Uniform::new` an empty range,
which panics (modelled by `none`) before any step can run. -/
theorem degenerate_construction {K : Type} [LinearOrderedField K] [FloorRing K]
    (w h l : ℕ) (t : Trig K) (tau piK : K) (rng rng' : ℕ → K)
    (cfg : Slime2.SlimeConfig K) (cfg3 : Slime3.SlimeConfig K) (dt : K)
    (hw : 0 < w) (hh : 0 < h) (hl : 0 < l) (htau : 0 < tau) (hpi : 0 < piK) :
    (∀ h0 n0 (rngx : ℕ → K), Slime2.SlimeSim.new 0 h0 n0 t tau rngx = none)
    ∧ (∀ w0 n0 (rngx : ℕ → K), Slime2.SlimeSim.new w0 0 n0 t tau rngx = none)
    ∧ (∃ sim : Slime2.SlimeSim K,
        Slime2.SlimeSim.new w h 0 t tau rng = some sim
        ∧ sim.front.slime = []
        ∧ (Slime2.SlimeSim.step t cfg dt rng' sim).front.slime = []
        ∧ ∀ p, (Slime2.SlimeSim.step t cfg dt rng' sim).front.medium.get p = 0)
    ∧ (∃ sim3 : Slime3.SlimeSim K,
        Slime3.SlimeSim.new w h l 0 t piK rng = some sim3
        ∧ sim3.front.slime = []
        ∧ (Slime3.SlimeSim.step t cfg3 dt rng' sim3).front.slime = []
        ∧ ∀ p, (Slime3.SlimeSim.step t cfg3 dt rng' sim3).front.medium.get p = 0) := by
  refine ⟨?_, ?_, ?_, ?_⟩
  · intro h0 n0 rngx
    simp [Slime2.SlimeSim.new, Slime2.SlimeFactory.new, Slime.Uniform.new]
  · intro w0 n0 rngx
    cases hx : Slime.Uniform.new (0 : K) (w0 : K) with
    | none => simp [Slime2.SlimeSim.new, Slime2.SlimeFactory.new, hx]
    | some u => simp [Slime2.SlimeSim.new, Slime2.SlimeFactory.new, hx, Slime.Uniform.new]
  · refine ⟨⟨⟨Slime2.Array2D.new w h, []⟩, ⟨Slime2.Array2D.new w h, []⟩,
      ⟨⟨0, (w : K)⟩, ⟨0, (h : K)⟩, ⟨0, tau⟩⟩⟩, ?_, rfl, rfl, ?_⟩
    · simp [Slime2.SlimeSim.new, Slime2.SlimeFactory.new, Slime.Uniform.new,
        Nat.cast_pos.mpr hw, Nat.cast_pos.mpr hh, htau, Slime2.genParticles]
    · rintro ⟨x, y⟩
      show (Slime2.diffuse_step cfg dt (⟨w, h, fun _ => 0⟩ : Slime2.Array2D K)
        ⟨w, h, fun _ => 0⟩).get (x, y) = 0
      by_cases hin : x < w ∧ y < h
      · have hz : (Claims2.mooreWindow (⟨w, h, fun _ => 0⟩ : Slime2.Array2D K) x y).sum = 0 := by
          apply List.sum_eq_zero
          intro v hv
          rcases List.mem_filterMap.mp hv with ⟨ij, _, hij⟩
          rcases sample_array_isize_some_val _ _ _ _ hij with ⟨q, hq⟩
          have h0 : (0 : K) = v := by
            simpa [Slime2.Array2D.get] using hq
          exact h0.symm
        simp [Slime2.diffuse_step, Slime2.Array2D.get, hin,
          Slime2.diffuseCell, Claims2.diffuseAccum_eq, Slime.mix, hz]
      · simp [Slime2.diffuse_step, Slime2.Array2D.get, hin]
  · refine ⟨⟨⟨Slime3.Array3D.new w h l, []⟩, ⟨Slime3.Array3D.new w h l, []⟩,
      ⟨⟨0, (w : K)⟩, ⟨0, (h : K)⟩, ⟨0, (l : K)⟩, ⟨0, piK⟩, ⟨-piK, piK⟩⟩⟩, ?_, rfl, rfl, ?_⟩
    · simp [Slime3.SlimeSim.new, Slime3.SlimeFactory.new, Slime.Uniform.new,
        Nat.cast_pos.mpr hw, Nat.cast_pos.mpr hh, Nat.cast_pos.mpr hl, htau, hpi,
        neg_lt_self hpi, Slime3.genParticles]
    · rintro ⟨x, y, z⟩
      show (Slime3.step_medium cfg3 (⟨w, h, l, fun _ => 0⟩ : Slime3.Array3D K)
        ⟨w, h, l, fun _ => 0⟩).get (x, y, z) = 0
      by_cases hin : x < w ∧ y < h ∧ z < l
      · have hz : (Claims2.axisWindow3 (⟨w, h, l, fun _ => 0⟩ : Slime3.Array3D K) x y z).sum = 0 := by
          apply List.sum_eq_zero
          intro v hv
          rcases List.mem_filterMap.mp hv with ⟨ijk, _, hijk⟩
          rcases sample_array_isize3_some_val _ _ _ hijk with ⟨q, hq⟩
          have h0 : (0 : K) = v := by
            simpa [Slime3.Array3D.get] using hq
          exact h0.symm
        simp [Slime3.step_medium, Slime3.Array3D.get, hin,
          Slime3.mediumCell, Claims2.mediumAccum_eq, Slime.mix, hz]
      · simp [Slime3.step_medium, Slime3.Array3D.get, hin]

/-- Witness for the amended C3 theorem at concrete inputs. -/
theorem degenerate_construction_witness :
    ((0 : ℕ) < 1 ∧ (0 : ℚ) < 7 ∧ (0 : ℚ) < 3) ∧
    Slime2.SlimeSim.new 0 5 3 trigQ (7 : ℚ) rng0 = none :=
  ⟨⟨by norm_num, by norm_num, by norm_num⟩,
   (degenerate_construction 1 1 1 trigQ 7 3 rng0 rng0 Claims2.cfgB Claims2.cfg3B 1
      (by norm_num) (by norm_num) (by norm_num) (by norm_num) (by norm_num)).1 5 3 rng0⟩

end Claims3

namespace Claims4

open Slime

/-- C4 (counterexample): the 2D sensor rotation angle is `sensor_spread
· dt`, not `sensor_spread`.  With sensor_spread = 1, dt = 2, an agent at
the origin heading (1,0) gets a left sensor at (cos 2, sin 2), while the
claim's dt-independent angle puts it at (cos 1, sin 1); the two differ
because cos 2 ≤ 0 < cos 1. -/
theorem sensor_spread_scaled_by_dt :
    Slime2.sensorPos cfgC fC
        (Slime2.Rot2.fromScaledAxis realTrig (cfgC.sensor_spread * 2))
      ≠ specLeftSensorPos cfgC fC := by
  have hpi4 := Real.pi_le_four
  have hpi3 := Real.pi_gt_three
  have h2 : Real.cos 2 ≤ 0 :=
    Real.cos_nonpos_of_pi_div_two_le_of_le (by linarith) (by linarith)
  have h1 : 0 < Real.cos 1 :=
    Real.cos_pos_of_mem_Ioo ⟨by linarith, by linarith⟩
  have e1 : Slime2.sensorPos cfgC fC
      (Slime2.Rot2.fromScaledAxis realTrig (cfgC.sensor_spread * 2))
      = ⟨Real.cos 2, Real.sin 2⟩ := by
    norm_num [Slime2.sensorPos, Slime2.Rot2.fromScaledAxis, realTrig,
      Slime2.Rot2.apply, Slime2.Vec2.scale, cfgC, fC]
  have e2 : specLeftSensorPos cfgC fC = ⟨Real.cos 1, Real.sin 1⟩ := by
    norm_num [specLeftSensorPos, Slime2.Rot2.apply, Slime2.Vec2.scale, cfgC, fC]
  rw [e1, e2]
  intro h
  have hx : Real.cos 2 = Real.cos 1 := congrArg Slime2.Vec2.x h
  linarith

/-- C4 (amended): the three candidate sample positions in the 2D engine
are the agent's position plus its heading rotated by `+(sensor_spread ·
dt)`, `0` and `−(sensor_spread · dt)` radians — the spread is scaled by
dt — projected forward by sample_dist; in the 3D engine the yaw/pitch
sensor quaternions use the angle `sensor_spread` with no dt factor, and
the right sensor is the rotation by the negated angle (the quaternion
conjugate). -/
theorem sensor_positions_formula (cfg : Slime2.SlimeConfig ℝ) (dt : ℝ)
    (f : Slime2.SlimeParticle ℝ) (ax : Slime3.Vec3 ℝ) (a : ℝ) :
    codeSensorTriple2 cfg dt f = specSensorTriple2 cfg dt f
    ∧ (Slime3.Quat.fromAxisAngle realTrig ax a).conj
        = Slime3.Quat.fromAxisAngle realTrig ax (-a) := by
  constructor
  · unfold codeSensorTriple2 specSensorTriple2
    refine Prod.ext ?_ (Prod.ext ?_ ?_)
    · rfl
    · show Slime2.sensorPos cfg f Slime2.Rot2.identity = _
      simp [Slime2.sensorPos, Slime2.Rot2.identity, Slime2.Rot2.apply]
    · show Slime2.sensorPos cfg f
        (Slime2.Rot2.fromScaledAxis realTrig (cfg.sensor_spread * dt)).inverse = _
      simp [Slime2.sensorPos, Slime2.Rot2.fromScaledAxis, Slime2.Rot2.inverse,
        realTrig, Real.cos_neg, Real.sin_neg]
  · simp [Slime3.Quat.conj, Slime3.Quat.fromAxisAngle, realTrig, Real.cos_neg,
      Real.sin_neg, neg_div]

end Claims4

namespace Claims5

open Slime

/-- C5 (counterexample): with deposits ≥ 0 and decay ≤ 1 — exactly the
claim's hypotheses — one relaxation pass can still drive a cell
negative.  With diffusion·dt = 2 the blend extrapolates: a 3×1 grid with
a unit spike at the centre relaxes to −1/3 there; and with decay = 1 but
dt = 2, the time-scaled decay factor 1 − decay·dt = −1 sends the spike
to −1. -/
theorem relaxation_can_go_negative :
    (Slime2.diffuse_step cfgD1 1 frontD backD).get (1, 0) = -(1 / 3)
    ∧ (Slime2.diffuse_step cfgD2 2 frontD backD).get (1, 0) = -1
    ∧ (0 ≤ cfgD1.deposit_rate * 1 ∧ cfgD1.decay ≤ 1)
    ∧ (0 ≤ cfgD2.deposit_rate * 2 ∧ cfgD2.decay ≤ 1)
    ∧ ¬(0 ≤ -(1 / 3 : ℚ)) := by
  refine ⟨?_, ?_, ⟨by norm_num [cfgD1], by norm_num [cfgD1]⟩,
    ⟨by norm_num [cfgD2], by norm_num [cfgD2]⟩, by norm_num⟩
  · have h2 : (2 : ℤ).toNat = 2 := rfl
    norm_num [Slime2.diffuse_step, Slime2.diffuseCell, Slime2.diffuseAccum,
      Slime2.diffuseOffsets, Slime2.sample_array_isize, Slime.boundsZ,
      Slime2.Array2D.get, Slime.mix, cfgD1, frontD, backD, h2]
  · have h2 : (2 : ℤ).toNat = 2 := rfl
    norm_num [Slime2.diffuse_step, Slime2.diffuseCell, Slime2.diffuseAccum,
      Slime2.diffuseOffsets, Slime2.sample_array_isize, Slime.boundsZ,
      Slime2.Array2D.get, Slime.mix, cfgD2, frontD, backD, h2]

/-- The 2D relaxation keeps every cell nonnegative when the blend factor
lies in [0,1] and the decay factor is nonnegative. -/
theorem diffuse_step_nonneg {K : Type} [LinearOrderedField K]
    (cfg : Slime2.SlimeConfig K) (dt : K) (front back : Slime2.Array2D K)
    (hfront : ∀ p, 0 ≤ front.get p) (hback : ∀ p, 0 ≤ back.get p)
    (hdiff0 : 0 ≤ cfg.diffusion * dt) (hdiff1 : cfg.diffusion * dt ≤ 1)
    (hdecay : cfg.decay * dt ≤ 1) :
    ∀ p, 0 ≤ (Slime2.diffuse_step cfg dt front back).get p := by
  rintro ⟨x, y⟩
  by_cases hin : x < front.width ∧ y < front.height
  · have hsum : 0 ≤ (Claims2.mooreWindow front x y).sum := by
      apply List.sum_nonneg
      intro v hv
      rcases List.mem_filterMap.mp hv with ⟨ij, _, hij⟩
      rcases Claims3.sample_array_isize_some_val _ _ _ _ hij with ⟨q, hq⟩
      exact hq ▸ hfront q
    have havg : 0 ≤ (Claims2.mooreWindow front x y).sum
        / ((Claims2.mooreWindow front x y).length : K) :=
      div_nonneg hsum (Nat.cast_nonneg _)
    have hmix : 0 ≤ Slime.mix (front.get (x, y))
        ((Claims2.mooreWindow front x y).sum
          / ((Claims2.mooreWindow front x y).length : K)) (cfg.diffusion * dt) := by
      unfold Slime.mix
      have h1 : 0 ≤ 1 - cfg.diffusion * dt := by linarith
      exact add_nonneg (mul_nonneg h1 (hfront (x, y))) (mul_nonneg hdiff0 havg)
    have hcell : 0 ≤ Slime2.diffuseCell cfg dt front x y := by
      unfold Slime2.diffuseCell
      rw [Claims2.diffuseAccum_eq]
      exact mul_nonneg (by linarith) hmix
    simpa [Slime2.diffuse_step, Slime2.Array2D.get, hin] using hcell
  · simpa [Slime2.diffuse_step, Slime2.Array2D.get, hin] using hback (x, y)

/-- The 3D relaxation keeps every cell nonnegative when diffusion lies in
[0,1] and decay ≤ 1. -/
theorem step_medium_nonneg {K : Type} [LinearOrderedField K]
    (cfg : Slime3.SlimeConfig K) (front back : Slime3.Array3D K)
    (hfront : ∀ p, 0 ≤ front.get p) (hback : ∀ p, 0 ≤ back.get p)
    (hdiff0 : 0 ≤ cfg.diffusion) (hdiff1 : cfg.diffusion ≤ 1)
    (hdecay : cfg.decay ≤ 1) :
    ∀ p, 0 ≤ (Slime3.step_medium cfg front back).get p := by
  rintro ⟨x, y, z⟩
  by_cases hin : x < front.width ∧ y < front.height ∧ z < front.length
  · have hsum : 0 ≤ (Claims2.axisWindow3 front x y z).sum := by
      apply List.sum_nonneg
      intro v hv
      rcases List.mem_filterMap.mp hv with ⟨ijk, _, hijk⟩
      rcases Claims3.sample_array_isize3_some_val _ _ _ hijk with ⟨q, hq⟩
      exact hq ▸ hfront q
    have havg : 0 ≤ (Claims2.axisWindow3 front x y z).sum
        / ((Claims2.axisWindow3 front x y z).length : K) :=
      div_nonneg hsum (Nat.cast_nonneg _)
    have hcell : 0 ≤ Slime3.mediumCell cfg front x y z := by
      unfold Slime3.mediumCell
      rw [Claims2.mediumAccum_eq]
      refine mul_nonneg (by linarith) ?_
      unfold Slime.mix
      exact add_nonneg (mul_nonneg (by linarith) (hfront (x, y, z)))
        (mul_nonneg hdiff0 havg)
    simpa [Slime3.step_medium, Slime3.Array3D.get, hin] using hcell
  · simpa [Slime3.step_medium, Slime3.Array3D.get, hin] using hback (x, y, z)

/-- One particle body of the 2D step keeps the back medium nonnegative
when the deposit is nonnegative. -/
theorem particleBody_medium_nonneg {K : Type} [LinearOrderedField K]
    [FloorRing K] (factory : Slime2.SlimeFactory K) (t : Trig K)
    (cfg : Slime2.SlimeConfig K) (dt : K) (lsr rsr ltr rtr : Slime2.Rot2 K)
    (frontM backM : Slime2.Array2D K) (f : Slime2.SlimeParticle K)
    (rng : ℕ → K) (n : ℕ) (hdep : 0 ≤ cfg.deposit_rate * dt)
    (hb : ∀ p, 0 ≤ backM.get p) :
    ∀ p, 0 ≤ (Slime2.particleBody factory t cfg dt lsr rsr ltr rtr
      frontM backM f rng n).2.1.get p := by
  intro p
  simp only [Slime2.particleBody]
  split
  · rename_i pos heq
    simp only [Slime2.Array2D.set, Slime2.Array2D.get]
    by_cases hp : p = pos
    · simpa [hp] using add_nonneg (hb pos) hdep
    · simpa [hp] using hb p
  · exact hb p

/-- The 2D particle loop keeps the back medium nonnegative when the
deposit is nonnegative. -/
theorem particleLoop_medium_nonneg {K : Type} [LinearOrderedField K]
    [FloorRing K] (factory : Slime2.SlimeFactory K) (t : Trig K)
    (cfg : Slime2.SlimeConfig K) (dt : K) (lsr rsr ltr rtr : Slime2.Rot2 K)
    (frontM : Slime2.Array2D K) (fs : List (Slime2.SlimeParticle K))
    (hdep : 0 ≤ cfg.deposit_rate * dt) :
    ∀ (backM : Slime2.Array2D K) (rng : ℕ → K) (n : ℕ),
      (∀ p, 0 ≤ backM.get p) →
      ∀ p, 0 ≤ (Slime2.particleLoop factory t cfg dt lsr rsr ltr rtr
        frontM fs backM rng n).2.1.get p := by
  induction fs with
  | nil => intro backM rng n hb p; exact hb p
  | cons f fs ih =>
    intro backM rng n hb p
    simp only [Slime2.particleLoop]
    exact ih _ rng _
      (particleBody_medium_nonneg factory t cfg dt lsr rsr ltr rtr
        frontM backM f rng n hdep hb) p

/-- C5 (amended): medium concentration stays nonnegative across a full
2D step — relaxation plus deposits — and across the 3D relaxation pass,
provided additionally the diffusion blend is a genuine interpolation:
0 ≤ diffusion·dt ≤ 1 and decay·dt ≤ 1 in the time-scaled 2D variant
(0 ≤ diffusion ≤ 1, decay ≤ 1 in 3D), with deposits ≥ 0 as the claim
already required.  Without the diffusion bound the blend extrapolates
and can overshoot below zero. -/
theorem medium_nonneg_preserved {K : Type} [LinearOrderedField K]
    [FloorRing K] (t : Trig K) (cfg : Slime2.SlimeConfig K) (dt : K)
    (rng : ℕ → K) (sim : Slime2.SlimeSim K) (cfg3 : Slime3.SlimeConfig K)
    (front3 back3 : Slime3.Array3D K)
    (hfront : ∀ p, 0 ≤ sim.front.medium.get p)
    (hback : ∀ p, 0 ≤ sim.back.medium.get p)
    (hdiff0 : 0 ≤ cfg.diffusion * dt) (hdiff1 : cfg.diffusion * dt ≤ 1)
    (hdecay : cfg.decay * dt ≤ 1) (hdep : 0 ≤ cfg.deposit_rate * dt)
    (hfront3 : ∀ p, 0 ≤ front3.get p) (hback3 : ∀ p, 0 ≤ back3.get p)
    (hdiff30 : 0 ≤ cfg3.diffusion) (hdiff31 : cfg3.diffusion ≤ 1)
    (hdecay3 : cfg3.decay ≤ 1) :
    (∀ p, 0 ≤ (Slime2.SlimeSim.step t cfg dt rng sim).front.medium.get p)
    ∧ (∀ p, 0 ≤ (Slime3.step_medium cfg3 front3 back3).get p) := by
  constructor
  · intro p
    show 0 ≤ (Slime2.particle_step sim.factory t cfg dt sim.front
      (Slime2.diffuse_step cfg dt sim.front.medium sim.back.medium)
      rng 0).2.1.get p
    unfold Slime2.particle_step
    exact particleLoop_medium_nonneg _ _ _ _ _ _ _ _ _ _ hdep _ rng 0
      (diffuse_step_nonneg cfg dt _ _ hfront hback hdiff0 hdiff1 hdecay) p
  · exact step_medium_nonneg cfg3 front3 back3 hfront3 hback3 hdiff30
      hdiff31 hdecay3

/-- Witness for the amended C5 theorem at concrete inputs. -/
theorem medium_nonneg_preserved_witness :
    ((∀ p, 0 ≤ simE.front.medium.get p) ∧ 0 ≤ Claims2.cfgB.diffusion * 1
      ∧ Claims2.cfgB.diffusion * 1 ≤ 1 ∧ Claims2.cfgB.decay * 1 ≤ 1) ∧
    (0 ≤ (Slime2.SlimeSim.step Claims3.trigQ Claims2.cfgB 1 Claims3.rng0
      simE).front.medium.get (0, 0)) :=
  ⟨⟨fun p => le_refl 0, by norm_num [Claims2.cfgB], by norm_num [Claims2.cfgB],
      by norm_num [Claims2.cfgB]⟩,
    (medium_nonneg_preserved Claims3.trigQ Claims2.cfgB 1 Claims3.rng0 simE
      Claims2.cfg3B Claims2.front3B Claims2.back3B
      (fun p => le_refl 0) (fun p => le_refl 0)
      (by norm_num [Claims2.cfgB]) (by norm_num [Claims2.cfgB])
      (by norm_num [Claims2.cfgB]) (by norm_num [Claims2.cfgB])
      (fun p => le_refl 0) (fun p => le_refl 0)
      (by norm_num [Claims2.cfg3B]) (by norm_num [Claims2.cfg3B])
      (by norm_num [Claims2.cfg3B])).1 (0, 0)⟩

end Claims5

namespace Claims6

open Slime

/-- A successful `Uniform::new` pins down the bounds and implies they are
ordered. -/
theorem uniform_new_some {K : Type} [LinearOrderedField K] (lo hi : K)
    (u : Uniform K) (h : Uniform.new lo hi = some u) :
    lo < hi ∧ u = ⟨lo, hi⟩ := by
  unfold Slime.Uniform.new at h
  split_ifs at h with hc
  exact ⟨hc, (Option.some_inj.mp h).symm⟩

/-- A successful 3D `SlimeFactory::new` pins down all five distributions
and implies the extents are positive. -/
theorem factory3_new_some {K : Type} [LinearOrderedField K] (w h l : ℕ)
    (piK : K) (fac : Slime3.SlimeFactory K)
    (hfac : Slime3.SlimeFactory.new w h l piK = some fac) :
    fac = ⟨⟨0, (w : K)⟩, ⟨0, (h : K)⟩, ⟨0, (l : K)⟩, ⟨0, piK⟩, ⟨-piK, piK⟩⟩
    ∧ 0 < (w : K) ∧ 0 < (h : K) ∧ 0 < (l : K) := by
  unfold Slime3.SlimeFactory.new at hfac
  cases hx : Slime.Uniform.new (0 : K) (w : K) with
  | none => rw [hx] at hfac; simp at hfac
  | some ux =>
    rw [hx] at hfac
    cases hy : Slime.Uniform.new (0 : K) (h : K) with
    | none => rw [hy] at hfac; simp at hfac
    | some uy =>
      rw [hy] at hfac
      cases hz : Slime.Uniform.new (0 : K) (l : K) with
      | none => rw [hz] at hfac; simp at hfac
      | some uz =>
        rw [hz] at hfac
        cases ht : Slime.Uniform.new (0 : K) piK with
        | none => rw [ht] at hfac; simp at hfac
        | some ut =>
          rw [ht] at hfac
          cases hr : Slime.Uniform.new (-piK) piK with
          | none => rw [hr] at hfac; simp at hfac
          | some ur =>
            rw [hr] at hfac
            obtain ⟨hw, rfl⟩ := uniform_new_some _ _ _ hx
            obtain ⟨hh, rfl⟩ := uniform_new_some _ _ _ hy
            obtain ⟨hl, rfl⟩ := uniform_new_some _ _ _ hz
            obtain ⟨-, rfl⟩ := uniform_new_some _ _ _ ht
            obtain ⟨-, rfl⟩ := uniform_new_some _ _ _ hr
            cases hfac
            exact ⟨rfl, hw, hh, hl⟩

/-- C6 (confirmed): when the integrated position fails the grid check
(negative or ≥ extent on some axis; non-finite cannot arise in exact
arithmetic), the back slot becomes a fresh factory draw: its position is
the uniform sample in [0, extent) on every axis, its origin is exactly
that spawn position, and its age is 0 — so the agent is never left
outside [0, extent). -/
theorem respawn_on_invalid_position {K : Type} [LinearOrderedField K]
    [FloorRing K] (w h l : ℕ) (piK : K) (fac : Slime3.SlimeFactory K)
    (t : Trig K) (cfg : Slime3.SlimeConfig K) (dt : K)
    (yawS pitchS yawT pitchT : Slime3.Quat K) (frontM backM : Slime3.Array3D K)
    (f : Slime3.SlimeParticle K) (rng : ℕ → K) (n : ℕ)
    (hfac : Slime3.SlimeFactory.new w h l piK = some fac)
    (hrng : ∀ m, 0 ≤ rng m ∧ rng m < 1)
    (hinvalid : Slime3.sample_array_vect backM
      (Slime3.newPosition cfg dt yawS pitchS yawT pitchT frontM backM f) = none) :
    ∃ b, Slime3.particleBody fac t cfg dt yawS pitchS yawT pitchT frontM backM f rng n
        = (b, backM, n + 5)
      ∧ b = (fac.slime t rng n).1
      ∧ b.age = 0 ∧ b.origin = b.position
      ∧ (0 ≤ b.position.x ∧ b.position.x < (w : K))
      ∧ (0 ≤ b.position.y ∧ b.position.y < (h : K))
      ∧ (0 ≤ b.position.z ∧ b.position.z < (l : K)) := by
  obtain ⟨rfl, hw, hh, hl⟩ := factory3_new_some w h l piK fac hfac
  refine ⟨_, ?_, rfl, rfl, rfl, ?_, ?_, ?_⟩
  · simp only [Slime3.particleBody, hinvalid]
    rfl
  · constructor
    · simpa [Slime3.SlimeFactory.slime, Slime.Uniform.sample] using
        mul_nonneg (hrng n).1 (by positivity)
    · simpa [Slime3.SlimeFactory.slime, Slime.Uniform.sample] using
        lt_of_lt_of_le (mul_lt_mul_of_pos_right (hrng n).2 hw) (by simp)
  · constructor
    · simpa [Slime3.SlimeFactory.slime, Slime.Uniform.sample] using
        mul_nonneg (hrng (n + 1)).1 (by positivity)
    · simpa [Slime3.SlimeFactory.slime, Slime.Uniform.sample] using
        lt_of_lt_of_le (mul_lt_mul_of_pos_right (hrng (n + 1)).2 hh) (by simp)
  · constructor
    · simpa [Slime3.SlimeFactory.slime, Slime.Uniform.sample] using
        mul_nonneg (hrng (n + 2)).1 (by positivity)
    · simpa [Slime3.SlimeFactory.slime, Slime.Uniform.sample] using
        lt_of_lt_of_le (mul_lt_mul_of_pos_right (hrng (n + 2)).2 hl) (by simp)

end Claims6

namespace Claims6

open Slime

/-- Witness for C6 at concrete inputs: in a 1×1×1 grid an agent with
identity heading integrates to z = 1, off the grid, and is respawned. -/
theorem respawn_on_invalid_position_witness :
    (Slime3.SlimeFactory.new 1 1 1 (3 : ℚ) = some facF
      ∧ (∀ m, 0 ≤ Claims3.rng0 m ∧ Claims3.rng0 m < 1)
      ∧ Slime3.sample_array_vect medF
          (Slime3.newPosition cfg3C 1 qOne qOne qOne qOne medF medF fF) = none) ∧
    (∃ b, Slime3.particleBody facF Claims3.trigQ cfg3C 1 qOne qOne qOne qOne
        medF medF fF Claims3.rng0 0 = (b, medF, 0 + 5)
      ∧ b = (facF.slime Claims3.trigQ Claims3.rng0 0).1
      ∧ b.age = 0 ∧ b.origin = b.position
      ∧ (0 ≤ b.position.x ∧ b.position.x < ((1 : ℕ) : ℚ))
      ∧ (0 ≤ b.position.y ∧ b.position.y < ((1 : ℕ) : ℚ))
      ∧ (0 ≤ b.position.z ∧ b.position.z < ((1 : ℕ) : ℚ))) :=
  ⟨⟨by norm_num [Slime3.SlimeFactory.new, Slime.Uniform.new, facF],
    fun m => ⟨by norm_num [Claims3.rng0], by norm_num [Claims3.rng0]⟩,
    by norm_num [Slime3.sample_array_vect, Slime.boundsF, Slime3.newPosition,
      Slime3.newHeading, Slime3.totalRotation, Slime3.rotsample, Slime3.sample,
      Slime3.sensorPos, Slime3.rotsampleDecision, Slime3.Quat.mul,
      Slime3.Quat.one, Slime3.Quat.conj, Slime3.Quat.rotate, Slime3.Quat.pureQ,
      Slime3.Vec3.scale, Slime3.Vec3.zAxis, Slime3.Array3D.get, Slime.ocmp,
      Slime.fcmp, cfg3C, medF, fF, qOne]⟩,
   respawn_on_invalid_position 1 1 1 3 facF Claims3.trigQ cfg3C 1 qOne qOne
     qOne qOne medF medF fF Claims3.rng0 0
     (by norm_num [Slime3.SlimeFactory.new, Slime.Uniform.new, facF])
     (fun m => ⟨by norm_num [Claims3.rng0], by norm_num [Claims3.rng0]⟩)
     (by norm_num [Slime3.sample_array_vect, Slime.boundsF, Slime3.newPosition,
       Slime3.newHeading, Slime3.totalRotation, Slime3.rotsample, Slime3.sample,
       Slime3.sensorPos, Slime3.rotsampleDecision, Slime3.Quat.mul,
       Slime3.Quat.one, Slime3.Quat.conj, Slime3.Quat.rotate, Slime3.Quat.pureQ,
       Slime3.Vec3.scale, Slime3.Vec3.zAxis, Slime3.Array3D.get, Slime.ocmp,
       Slime.fcmp, cfg3C, medF, fF, qOne])⟩

/-- C7 (confirmed): when the integrated position maps to a valid cell,
the body adds exactly `deposit_rate·dt` to that cell of the back medium
(all other cells unchanged) and commits the particle with origin taken
unchanged from the front particle, age exactly incremented, and only
position and heading otherwise updated. -/
theorem deposit_and_commit {K : Type} [LinearOrderedField K] [FloorRing K]
    (fac : Slime3.SlimeFactory K) (t : Trig K) (cfg : Slime3.SlimeConfig K)
    (dt : K) (yawS pitchS yawT pitchT : Slime3.Quat K)
    (frontM backM : Slime3.Array3D K) (f : Slime3.SlimeParticle K)
    (rng : ℕ → K) (n : ℕ) (pos : ℕ × ℕ × ℕ)
    (hvalid : Slime3.sample_array_vect backM
      (Slime3.newPosition cfg dt yawS pitchS yawT pitchT frontM backM f)
        = some pos) :
    Slime3.particleBody fac t cfg dt yawS pitchS yawT pitchT frontM backM f rng n
      = (⟨Slime3.newPosition cfg dt yawS pitchS yawT pitchT frontM backM f,
          Slime3.newHeading cfg yawS pitchS yawT pitchT frontM backM f,
          f.origin, f.age + 1⟩,
         backM.set pos (backM.get pos + cfg.deposit_rate * dt), n)
    ∧ (backM.set pos (backM.get pos + cfg.deposit_rate * dt)).get pos
        = backM.get pos + cfg.deposit_rate * dt
    ∧ ∀ q, q ≠ pos →
        (backM.set pos (backM.get pos + cfg.deposit_rate * dt)).get q
          = backM.get q := by
  refine ⟨?_, ?_, ?_⟩
  · simp only [Slime3.particleBody, hvalid]
  · simp [Slime3.Array3D.set, Slime3.Array3D.get]
  · intro q hq
    simp [Slime3.Array3D.set, Slime3.Array3D.get, hq]

/-- Witness for C7 at concrete inputs: with zero move speed the agent
stays in the only cell; the deposit lands there and age goes 5 → 6. -/
theorem deposit_and_commit_witness :
    (Slime3.sample_array_vect medF
        (Slime3.newPosition cfg3D 1 qOne qOne qOne qOne medF medF fF)
      = some (0, 0, 0)) ∧
    (Slime3.particleBody facF Claims3.trigQ cfg3D 1 qOne qOne qOne qOne
        medF medF fF Claims3.rng0 0
      = (⟨Slime3.newPosition cfg3D 1 qOne qOne qOne qOne medF medF fF,
          Slime3.newHeading cfg3D qOne qOne qOne qOne medF medF fF,
          fF.origin, fF.age + 1⟩,
         medF.set (0, 0, 0) (medF.get (0, 0, 0) + cfg3D.deposit_rate * 1), 0)
    ∧ (medF.set (0, 0, 0) (medF.get (0, 0, 0) + cfg3D.deposit_rate * 1)).get (0, 0, 0)
        = medF.get (0, 0, 0) + cfg3D.deposit_rate * 1
    ∧ ∀ q, q ≠ (0, 0, 0) →
        (medF.set (0, 0, 0) (medF.get (0, 0, 0) + cfg3D.deposit_rate * 1)).get q
          = medF.get q) :=
  ⟨by norm_num [Slime3.sample_array_vect, Slime.boundsF, Slime3.newPosition,
      Slime3.newHeading, Slime3.totalRotation, Slime3.rotsample, Slime3.sample,
      Slime3.sensorPos, Slime3.rotsampleDecision, Slime3.Quat.mul,
      Slime3.Quat.one, Slime3.Quat.conj, Slime3.Quat.rotate, Slime3.Quat.pureQ,
      Slime3.Vec3.scale, Slime3.Vec3.zAxis, Slime3.Array3D.get, Slime.ocmp,
      Slime.fcmp, cfg3D, cfg3C, medF, fF, qOne],
   deposit_and_commit facF Claims3.trigQ cfg3D 1 qOne qOne qOne qOne medF medF
     fF Claims3.rng0 0 (0, 0, 0)
     (by norm_num [Slime3.sample_array_vect, Slime.boundsF, Slime3.newPosition,
       Slime3.newHeading, Slime3.totalRotation, Slime3.rotsample, Slime3.sample,
       Slime3.sensorPos, Slime3.rotsampleDecision, Slime3.Quat.mul,
       Slime3.Quat.one, Slime3.Quat.conj, Slime3.Quat.rotate, Slime3.Quat.pureQ,
       Slime3.Vec3.scale, Slime3.Vec3.zAxis, Slime3.Array3D.get, Slime.ocmp,
       Slime.fcmp, cfg3D, cfg3C, medF, fF, qOne])⟩

end Claims6

namespace Claims8

open Slime

/-- C8 (confirmed): on the 10×10 all-zero grid with a single agent at
(5,5) heading (1,0) and move_speed = dt = deposit_rate = 1, decay =
diffusion = 0, one step — for any trig tables and any sensing
parameters, since every sensor reads 0 or falls off-grid and every such
comparison pair selects the identity rotation — moves the agent to
(6,5), deposits 1.0 into cell (6,5), and leaves every other cell at
0.0. -/
theorem scenario_one_step (t : Trig ℚ) (spread turn dist : ℚ) (rng : ℕ → ℚ) :
    (Slime2.SlimeSim.step t (cfgS spread turn dist) 1 rng simS).front.slime
      = [⟨⟨6, 5⟩, ⟨1, 0⟩⟩]
    ∧ (Slime2.SlimeSim.step t (cfgS spread turn dist) 1 rng
        simS).front.medium.get (6, 5) = 1
    ∧ ∀ p, p ≠ (6, 5) →
        (Slime2.SlimeSim.step t (cfgS spread turn dist) 1 rng
          simS).front.medium.get p = 0 := by
  set cfg := cfgS spread turn dist with hcfg
  have hzero : ∀ q, (Slime2.diffuse_step cfg 1 med10 med10).get q = 0 := by
    rintro ⟨x, y⟩
    by_cases hin : x < 10 ∧ y < 10
    · simp [Slime2.diffuse_step, Slime2.Array2D.get, Slime2.diffuseCell,
        Slime.mix, hin, hcfg, cfgS, med10]
    · simp [Slime2.diffuse_step, Slime2.Array2D.get, hin, med10]
  have hsamp : ∀ r : Slime2.Rot2 ℚ,
      Slime2.sensorSample cfg med10 (Slime2.diffuse_step cfg 1 med10 med10)
          agentS r = none
      ∨ Slime2.sensorSample cfg med10 (Slime2.diffuse_step cfg 1 med10 med10)
          agentS r = some 0 := by
    intro r
    unfold Slime2.sensorSample
    cases Slime2.sample_array_vect (Slime2.diffuse_step cfg 1 med10 med10)
        (Slime2.sensorPos cfg agentS r) with
    | none => exact Or.inl rfl
    | some q => exact Or.inr (by simp [Slime2.Array2D.get, med10])
  have hdec : ∀ lsr rsr ltr rtr : Slime2.Rot2 ℚ,
      Slime2.decision cfg lsr rsr ltr rtr med10
        (Slime2.diffuse_step cfg 1 med10 med10) agentS = Slime2.Rot2.identity := by
    intro lsr rsr ltr rtr
    simp only [Slime2.decision]
    obtain h1 | h1 := hsamp lsr <;>
      obtain h2 | h2 := hsamp Slime2.Rot2.identity <;>
      obtain h3 | h3 := hsamp rsr <;>
      rw [h1, h2, h3] <;>
      norm_num [Slime.ocmp, Slime.fcmp, Slime2.steer]
  have hhead : ∀ lsr rsr ltr rtr : Slime2.Rot2 ℚ,
      Slime2.newHeading cfg lsr rsr ltr rtr med10
        (Slime2.diffuse_step cfg 1 med10 med10) agentS = ⟨1, 0⟩ := by
    intro lsr rsr ltr rtr
    unfold Slime2.newHeading
    rw [hdec]
    norm_num [Slime2.Rot2.apply, Slime2.Rot2.identity, agentS]
  have hpos : ∀ lsr rsr ltr rtr : Slime2.Rot2 ℚ,
      Slime2.newPosition cfg 1 lsr rsr ltr rtr med10
        (Slime2.diffuse_step cfg 1 med10 med10) agentS = ⟨6, 5⟩ := by
    intro lsr rsr ltr rtr
    unfold Slime2.newPosition
    rw [hhead]
    norm_num [Slime2.Vec2.scale, agentS, hcfg, cfgS]
  have hvalid : Slime2.sample_array_vect (Slime2.diffuse_step cfg 1 med10 med10)
      (⟨6, 5⟩ : Slime2.Vec2 ℚ) = some (6, 5) := by
    have hw : (Slime2.diffuse_step cfg 1 med10 med10).width = 10 := rfl
    have hh : (Slime2.diffuse_step cfg 1 med10 med10).height = 10 := rfl
    norm_num [Slime2.sample_array_vect, Slime.boundsF, hw, hh,
      (show ((6 : ℤ)).toNat = 6 from rfl), (show ((5 : ℤ)).toNat = 5 from rfl)]
  have hstep : Slime2.SlimeSim.step t cfg 1 rng simS
      = ⟨⟨(Slime2.diffuse_step cfg 1 med10 med10).set (6, 5)
            ((Slime2.diffuse_step cfg 1 med10 med10).get (6, 5)
              + cfg.deposit_rate * 1),
          [⟨⟨6, 5⟩, ⟨1, 0⟩⟩]⟩, simS.front, simS.factory⟩ := by
    simp only [Slime2.SlimeSim.step, Slime2.particle_step, simS,
      Slime2.particleLoop, Slime2.particleBody]
    rw [hpos, hhead, hvalid]
  refine ⟨?_, ?_, ?_⟩
  · rw [hstep]
  · have h65 := hzero (6, 5)
    rw [hstep]
    show ((Slime2.diffuse_step cfg 1 med10 med10).set (6, 5)
      ((Slime2.diffuse_step cfg 1 med10 med10).get (6, 5)
        + cfg.deposit_rate * 1)).get (6, 5) = 1
    rw [h65]
    norm_num [Slime2.Array2D.set, Slime2.Array2D.get, hcfg, cfgS]
  · intro p hp
    have hpz := hzero p
    rw [hstep]
    show ((Slime2.diffuse_step cfg 1 med10 med10).set (6, 5)
      ((Slime2.diffuse_step cfg 1 med10 med10).get (6, 5)
        + cfg.deposit_rate * 1)).get p = 0
    simp only [Slime2.Array2D.set, Slime2.Array2D.get] at hpz ⊢
    simp [hp, hpz]

end Claims8

namespace Claims9

open Slime

/-- An orthonormal rotation matrix preserves the squared norm. -/
theorem rot2_apply_normSq {K : Type} [LinearOrderedField K] (r : Slime2.Rot2 K)
    (hr : r.c ^ 2 + r.s ^ 2 = 1) (v : Slime2.Vec2 K) :
    (r.apply v).normSq = v.normSq := by
  have h : (r.apply v).normSq = (r.c ^ 2 + r.s ^ 2) * v.normSq := by
    simp only [Slime2.Rot2.apply, Slime2.Vec2.normSq]
    ring
  rw [h, hr, one_mul]

/-- The steering match always returns one of its three rotation
arguments. -/
theorem steer_cases {R : Type} (a b c : R) (lc cr : Option Ordering) :
    Slime2.steer a b c lc cr = a ∨ Slime2.steer a b c lc cr = b
    ∨ Slime2.steer a b c lc cr = c := by
  rcases lc with _ | o
  · rcases cr with _ | o2
    · exact Or.inr (Or.inr rfl)
    · cases o2 <;> exact Or.inr (Or.inr rfl)
  · rcases cr with _ | o2
    · cases o <;> exact Or.inr (Or.inr rfl)
    · cases o <;> cases o2 <;>
        first
        | exact Or.inl rfl
        | exact Or.inr (Or.inl rfl)
        | exact Or.inr (Or.inr rfl)

/-- The inverse of an orthonormal rotation is orthonormal. -/
theorem rot2_inverse_unit {K : Type} [LinearOrderedField K] (r : Slime2.Rot2 K)
    (hr : r.c ^ 2 + r.s ^ 2 = 1) :
    r.inverse.c ^ 2 + r.inverse.s ^ 2 = 1 := by
  simpa [Slime2.Rot2.inverse, neg_sq] using hr

/-- The integrated 2D heading keeps unit length: the applied rotation is
one of the two turn rotations or the identity. -/
theorem newHeading2_unit {K : Type} [LinearOrderedField K] [FloorRing K]
    (cfg : Slime2.SlimeConfig K) (lsr rsr ltr rtr : Slime2.Rot2 K)
    (frontM backM : Slime2.Array2D K) (f : Slime2.SlimeParticle K)
    (hltr : ltr.c ^ 2 + ltr.s ^ 2 = 1) (hrtr : rtr.c ^ 2 + rtr.s ^ 2 = 1)
    (hf : f.heading.normSq = 1) :
    (Slime2.newHeading cfg lsr rsr ltr rtr frontM backM f).normSq = 1 := by
  unfold Slime2.newHeading
  simp only [Slime2.decision]
  rcases steer_cases ltr rtr (Slime2.Rot2.identity (K := K))
      (ocmp (Slime2.sensorSample cfg frontM backM f lsr)
        (Slime2.sensorSample cfg frontM backM f Slime2.Rot2.identity))
      (ocmp (Slime2.sensorSample cfg frontM backM f Slime2.Rot2.identity)
        (Slime2.sensorSample cfg frontM backM f rsr)) with h | h | h <;>
    rw [h]
  · rw [rot2_apply_normSq ltr hltr f.heading, hf]
  · rw [rot2_apply_normSq rtr hrtr f.heading, hf]
  · rw [rot2_apply_normSq Slime2.Rot2.identity (by norm_num [Slime2.Rot2.identity])
      f.heading, hf]

/-- One 2D particle body yields a unit heading: either a rotation of the
front particle's unit heading, or a fresh `unit_circ` spawn. -/
theorem particleBody_heading_unit {K : Type} [LinearOrderedField K]
    [FloorRing K] (factory : Slime2.SlimeFactory K) (t : Trig K)
    (cfg : Slime2.SlimeConfig K) (dt : K) (lsr rsr ltr rtr : Slime2.Rot2 K)
    (frontM backM : Slime2.Array2D K) (f : Slime2.SlimeParticle K)
    (rng : ℕ → K) (n : ℕ)
    (htrig : ∀ a, t.cos a ^ 2 + t.sin a ^ 2 = 1)
    (hltr : ltr.c ^ 2 + ltr.s ^ 2 = 1) (hrtr : rtr.c ^ 2 + rtr.s ^ 2 = 1)
    (hf : f.heading.normSq = 1) :
    (Slime2.particleBody factory t cfg dt lsr rsr ltr rtr frontM backM
      f rng n).1.heading.normSq = 1 := by
  simp only [Slime2.particleBody]
  split
  · exact newHeading2_unit cfg lsr rsr ltr rtr frontM backM f hltr hrtr hf
  · simpa [Slime2.SlimeFactory.slime, Slime2.unit_circ, Slime2.Vec2.normSq]
      using htrig (factory.angle.sample (rng (n + 2)))

/-- The 2D particle loop yields unit headings throughout. -/
theorem particleLoop_heading_unit {K : Type} [LinearOrderedField K]
    [FloorRing K] (factory : Slime2.SlimeFactory K) (t : Trig K)
    (cfg : Slime2.SlimeConfig K) (dt : K) (lsr rsr ltr rtr : Slime2.Rot2 K)
    (frontM : Slime2.Array2D K) (fs : List (Slime2.SlimeParticle K))
    (htrig : ∀ a, t.cos a ^ 2 + t.sin a ^ 2 = 1)
    (hltr : ltr.c ^ 2 + ltr.s ^ 2 = 1) (hrtr : rtr.c ^ 2 + rtr.s ^ 2 = 1) :
    ∀ (backM : Slime2.Array2D K) (rng : ℕ → K) (n : ℕ), allUnit2 fs →
      allUnit2 (Slime2.particleLoop factory t cfg dt lsr rsr ltr rtr frontM
        fs backM rng n).1 := by
  induction fs with
  | nil => intro backM rng n _ f hf; simp [Slime2.particleLoop] at hf
  | cons g gs ih =>
    intro backM rng n hall f hf
    simp only [Slime2.particleLoop, List.mem_cons] at hf
    rcases hf with rfl | hf
    · exact particleBody_heading_unit factory t cfg dt lsr rsr ltr rtr frontM
        backM g rng n htrig hltr hrtr (hall g (List.mem_cons_self g gs))
    · exact ih _ rng _ (fun q hq => hall q (List.mem_cons_of_mem g hq)) f hf

/-- One full 2D step preserves unit headings in both buffers. -/
theorem step_allUnit {K : Type} [LinearOrderedField K] [FloorRing K]
    (t : Trig K) (cfg : Slime2.SlimeConfig K) (dt : K) (rng : ℕ → K)
    (sim : Slime2.SlimeSim K)
    (htrig : ∀ a, t.cos a ^ 2 + t.sin a ^ 2 = 1)
    (h : allUnitSim2 sim) : allUnitSim2 (Slime2.SlimeSim.step t cfg dt rng sim) := by
  constructor
  · show allUnit2 (Slime2.particle_step sim.factory t cfg dt sim.front
      (Slime2.diffuse_step cfg dt sim.front.medium sim.back.medium) rng 0).1
    unfold Slime2.particle_step
    exact particleLoop_heading_unit sim.factory t cfg dt _ _ _ _ _
      sim.front.slime htrig (htrig _)
      (rot2_inverse_unit _ (htrig _)) _ rng 0 h.1
  · exact h.1

end Claims9

namespace Claims9

open Slime

/-- Quaternion norm is multiplicative (Euler's four-square identity). -/
theorem quat_normSq_mul {K : Type} [LinearOrderedField K] (a b : Slime3.Quat K) :
    (a * b).normSq = a.normSq * b.normSq := by
  simp only [Slime3.Quat.mul_def, Slime3.Quat.mul, Slime3.Quat.normSq]
  ring

/-- Conjugation preserves the quaternion norm. -/
theorem quat_conj_normSq {K : Type} [LinearOrderedField K] (a : Slime3.Quat K) :
    a.conj.normSq = a.normSq := by
  simp only [Slime3.Quat.conj, Slime3.Quat.normSq]
  ring

/-- Axis-angle quaternions about the coordinate x axis are unit. -/
theorem fromAxisAngle_x_unit {K : Type} [LinearOrderedField K] (t : Trig K)
    (htrig : ∀ a, t.cos a ^ 2 + t.sin a ^ 2 = 1) (a : K) :
    (Slime3.Quat.fromAxisAngle t ⟨1, 0, 0⟩ a).normSq = 1 := by
  have h := htrig (a / 2)
  simp only [Slime3.Quat.fromAxisAngle, Slime3.Quat.normSq]
  ring_nf
  ring_nf at h
  linarith

/-- Axis-angle quaternions about the coordinate y axis are unit. -/
theorem fromAxisAngle_y_unit {K : Type} [LinearOrderedField K] (t : Trig K)
    (htrig : ∀ a, t.cos a ^ 2 + t.sin a ^ 2 = 1) (a : K) :
    (Slime3.Quat.fromAxisAngle t ⟨0, 1, 0⟩ a).normSq = 1 := by
  have h := htrig (a / 2)
  simp only [Slime3.Quat.fromAxisAngle, Slime3.Quat.normSq]
  ring_nf
  ring_nf at h
  linarith

/-- Axis-angle quaternions about the coordinate z axis are unit. -/
theorem fromAxisAngle_z_unit {K : Type} [LinearOrderedField K] (t : Trig K)
    (htrig : ∀ a, t.cos a ^ 2 + t.sin a ^ 2 = 1) (a : K) :
    (Slime3.Quat.fromAxisAngle t ⟨0, 0, 1⟩ a).normSq = 1 := by
  have h := htrig (a / 2)
  simp only [Slime3.Quat.fromAxisAngle, Slime3.Quat.normSq]
  ring_nf
  ring_nf at h
  linarith

/-- The `rotsample` match always returns `turn`, its conjugate, or the
identity. -/
theorem rotsampleDecision_cases {K : Type} [LinearOrderedField K]
    (turn u : Slime3.Quat K) (lc cr : Option Ordering) :
    Slime3.rotsampleDecision turn u lc cr = turn
    ∨ Slime3.rotsampleDecision turn u lc cr = turn.conj
    ∨ Slime3.rotsampleDecision turn u lc cr = u := by
  rcases lc with _ | o
  · rcases cr with _ | o2
    · exact Or.inr (Or.inr rfl)
    · cases o2 <;> exact Or.inr (Or.inr rfl)
  · rcases cr with _ | o2
    · cases o <;> exact Or.inr (Or.inr rfl)
    · cases o <;> cases o2 <;>
        first
        | exact Or.inl rfl
        | exact Or.inr (Or.inl rfl)
        | exact Or.inr (Or.inr rfl)

/-- `rotsample` yields a unit quaternion whenever the turn argument is
unit. -/
theorem rotsample_unit {K : Type} [LinearOrderedField K] [FloorRing K]
    (cfg : Slime3.SlimeConfig K) (frontM backM : Slime3.Array3D K)
    (f : Slime3.SlimeParticle K) (sensor turn : Slime3.Quat K)
    (ht : turn.normSq = 1) :
    (Slime3.rotsample cfg frontM backM f sensor turn).normSq = 1 := by
  unfold Slime3.rotsample
  rcases rotsampleDecision_cases turn (Slime3.Quat.one (K := K))
      (ocmp (Slime3.sample cfg frontM backM f sensor)
        (Slime3.sample cfg frontM backM f Slime3.Quat.one))
      (ocmp (Slime3.sample cfg frontM backM f Slime3.Quat.one)
        (Slime3.sample cfg frontM backM f sensor.conj)) with h | h | h <;>
    rw [h]
  · exact ht
  · rw [quat_conj_normSq]; exact ht
  · norm_num [Slime3.Quat.one, Slime3.Quat.normSq]

/-- The integrated 3D heading keeps unit norm whenever the turn
quaternions and the front heading are unit. -/
theorem newHeading3_unit {K : Type} [LinearOrderedField K] [FloorRing K]
    (cfg : Slime3.SlimeConfig K) (yawS pitchS yawT pitchT : Slime3.Quat K)
    (frontM backM : Slime3.Array3D K) (f : Slime3.SlimeParticle K)
    (hyt : yawT.normSq = 1) (hpt : pitchT.normSq = 1)
    (hf : f.heading.normSq = 1) :
    (Slime3.newHeading cfg yawS pitchS yawT pitchT frontM backM f).normSq = 1 := by
  unfold Slime3.newHeading Slime3.totalRotation
  rw [quat_normSq_mul, quat_normSq_mul,
    rotsample_unit cfg frontM backM f yawS yawT hyt,
    rotsample_unit cfg frontM backM f pitchS pitchT hpt, hf]
  norm_num

/-- A 3D factory spawn has a unit heading: `from_euler_angles` is a
product of three coordinate-axis axis-angle rotations. -/
theorem spawn3_heading_unit {K : Type} [LinearOrderedField K]
    (fac : Slime3.SlimeFactory K) (t : Trig K) (rng : ℕ → K) (n : ℕ)
    (htrig : ∀ a, t.cos a ^ 2 + t.sin a ^ 2 = 1) :
    (fac.slime t rng n).1.heading.normSq = 1 := by
  show (Slime3.Quat.fromEulerAngles t _ _ 0).normSq = 1
  unfold Slime3.Quat.fromEulerAngles
  rw [quat_normSq_mul, quat_normSq_mul, fromAxisAngle_z_unit t htrig,
    fromAxisAngle_y_unit t htrig, fromAxisAngle_x_unit t htrig]
  norm_num

end Claims9

namespace Claims9

open Slime

/-- C9 (confirmed): headings are unit-length at every tick, exactly in
the real-trigonometry model (the tolerance of the claim covers f32
rounding, which exact arithmetic does not exhibit): a 2D factory spawn
has a unit heading; any number of 2D steps preserves unit headings in
both buffers (every applied rotation is one of the two orthonormal turn
rotations or the identity, and respawns are fresh unit spawns); a 3D
factory spawn is a unit quaternion; and the 3D per-tick heading update —
with the exact yaw/pitch rotations `step_particles` builds — keeps the
heading unit. -/
theorem heading_unit_invariant {K : Type} [LinearOrderedField K] [FloorRing K]
    (t : Trig K) (htrig : ∀ a, t.cos a ^ 2 + t.sin a ^ 2 = 1)
    (fac : Slime2.SlimeFactory K) (rng : ℕ → K) (n : ℕ)
    (cfg : Slime2.SlimeConfig K) (dt : K) (rngs : ℕ → ℕ → K)
    (fac3 : Slime3.SlimeFactory K) (cfg3 : Slime3.SlimeConfig K) (dt3 : K)
    (frontM backM : Slime3.Array3D K) (f3 : Slime3.SlimeParticle K)
    (hf3 : f3.heading.normSq = 1) :
    (fac.slime t rng n).1.heading.normSq = 1
    ∧ (∀ sim, allUnitSim2 sim → ∀ m, allUnitSim2 (stepN t cfg dt rngs m sim))
    ∧ (fac3.slime t rng n).1.heading.normSq = 1
    ∧ (Slime3.newHeading cfg3
        (Slime3.Quat.fromAxisAngle t ⟨1, 0, 0⟩ cfg3.sensor_spread)
        (Slime3.Quat.fromAxisAngle t ⟨0, 1, 0⟩ cfg3.sensor_spread)
        (Slime3.Quat.fromAxisAngle t ⟨1, 0, 0⟩ (cfg3.turn_speed * dt3))
        (Slime3.Quat.fromAxisAngle t ⟨0, 1, 0⟩ (cfg3.turn_speed * dt3))
        frontM backM f3).normSq = 1 := by
  refine ⟨?_, ?_, spawn3_heading_unit fac3 t rng n htrig, ?_⟩
  · show (Slime2.unit_circ t _).normSq = 1
    simpa [Slime2.unit_circ, Slime2.Vec2.normSq] using
      htrig (fac.angle.sample (rng (n + 2)))
  · have aux : ∀ m (sim : Slime2.SlimeSim K), allUnitSim2 sim →
        allUnitSim2 (stepN t cfg dt rngs m sim) := by
      intro m
      induction m with
      | zero => intro sim hsim; exact hsim
      | succ m ih =>
        intro sim hsim
        exact ih _ (step_allUnit t cfg dt (rngs m) sim htrig hsim)
    exact fun sim hsim m => aux m sim hsim
  · exact newHeading3_unit cfg3 _ _ _ _ frontM backM f3
      (fromAxisAngle_x_unit t htrig _) (fromAxisAngle_y_unit t htrig _) hf3

/-- Witness for C9 with the real trigonometric tables. -/
theorem heading_unit_invariant_witness :
    ((∀ a, realTrig.cos a ^ 2 + realTrig.sin a ^ 2 = 1)
      ∧ f3R.heading.normSq = 1) ∧
    (facR.slime realTrig rngR 0).1.heading.normSq = 1 :=
  ⟨⟨fun a => Real.cos_sq_add_sin_sq a,
    by norm_num [f3R, Slime3.Quat.normSq]⟩,
   (heading_unit_invariant realTrig (fun a => Real.cos_sq_add_sin_sq a)
      facR rngR 0 cfg2R 1 rngsR fac3R cfg3R 1 med3R med3R f3R
      (by norm_num [f3R, Slime3.Quat.normSq])).1⟩

end Claims9

namespace Claims10

open Slime

/-- A successful continuous bounds check yields an index below the
extent. -/
theorem boundsF_lt {K : Type} [LinearOrderedField K] [FloorRing K]
    (x : K) (w i : ℕ) (h : Slime.boundsF x w = some i) : i < w := by
  unfold Slime.boundsF at h
  split_ifs at h with hc
  have hi : i = ⌊x⌋.toNat := (Option.some_inj.mp h).symm
  have hfl : ⌊x⌋ < (w : ℤ) := by
    rw [Int.floor_lt]
    exact_mod_cast hc.2
  have hfl0 : 0 ≤ ⌊x⌋ := Int.floor_nonneg.mpr hc.1
  omega

/-- A successful 2D position-to-cell conversion is in bounds for the
checked grid. -/
theorem sample_array_vect_lt {K : Type} [LinearOrderedField K] [FloorRing K]
    (arr : Slime2.Array2D K) (v : Slime2.Vec2 K) (p : ℕ × ℕ)
    (h : Slime2.sample_array_vect arr v = some p) :
    p.1 < arr.width ∧ p.2 < arr.height := by
  unfold Slime2.sample_array_vect at h
  cases hx : Slime.boundsF v.x arr.width with
  | none => rw [hx] at h; simp at h
  | some px =>
    rw [hx] at h
    cases hy : Slime.boundsF v.y arr.height with
    | none => rw [hy] at h; simp at h
    | some py =>
      rw [hy] at h
      cases h
      exact ⟨boundsF_lt _ _ _ hx, boundsF_lt _ _ _ hy⟩

/-- A successful 3D position-to-cell conversion is in bounds for the
checked grid. -/
theorem sample_array_vect3_lt {K : Type} [LinearOrderedField K] [FloorRing K]
    (arr : Slime3.Array3D K) (v : Slime3.Vec3 K) (p : ℕ × ℕ × ℕ)
    (h : Slime3.sample_array_vect arr v = some p) :
    p.1 < arr.width ∧ p.2.1 < arr.height ∧ p.2.2 < arr.length := by
  unfold Slime3.sample_array_vect at h
  cases hx : Slime.boundsF v.x arr.width with
  | none => rw [hx] at h; simp at h
  | some px =>
    rw [hx] at h
    cases hy : Slime.boundsF v.y arr.height with
    | none => rw [hy] at h; simp at h
    | some py =>
      rw [hy] at h
      cases hz : Slime.boundsF v.z arr.length with
      | none => rw [hz] at h; simp at h
      | some pz =>
        rw [hz] at h
        cases h
        exact ⟨boundsF_lt _ _ _ hx, boundsF_lt _ _ _ hy, boundsF_lt _ _ _ hz⟩

/-- One 2D particle body never changes the back medium's extents. -/
theorem particleBody_medium_dims {K : Type} [LinearOrderedField K]
    [FloorRing K] (factory : Slime2.SlimeFactory K) (t : Trig K)
    (cfg : Slime2.SlimeConfig K) (dt : K) (lsr rsr ltr rtr : Slime2.Rot2 K)
    (frontM backM : Slime2.Array2D K) (f : Slime2.SlimeParticle K)
    (rng : ℕ → K) (n : ℕ) :
    (Slime2.particleBody factory t cfg dt lsr rsr ltr rtr frontM backM
        f rng n).2.1.width = backM.width
    ∧ (Slime2.particleBody factory t cfg dt lsr rsr ltr rtr frontM backM
        f rng n).2.1.height = backM.height := by
  simp only [Slime2.particleBody]
  split <;> exact ⟨rfl, rfl⟩

/-- The 2D particle loop never changes the back medium's extents. -/
theorem particleLoop_medium_dims {K : Type} [LinearOrderedField K]
    [FloorRing K] (factory : Slime2.SlimeFactory K) (t : Trig K)
    (cfg : Slime2.SlimeConfig K) (dt : K) (lsr rsr ltr rtr : Slime2.Rot2 K)
    (frontM : Slime2.Array2D K) (fs : List (Slime2.SlimeParticle K)) :
    ∀ (backM : Slime2.Array2D K) (rng : ℕ → K) (n : ℕ),
      (Slime2.particleLoop factory t cfg dt lsr rsr ltr rtr frontM fs backM
          rng n).2.1.width = backM.width
      ∧ (Slime2.particleLoop factory t cfg dt lsr rsr ltr rtr frontM fs backM
          rng n).2.1.height = backM.height := by
  induction fs with
  | nil => intro backM rng n; exact ⟨rfl, rfl⟩
  | cons f fs ih =>
    intro backM rng n
    simp only [Slime2.particleLoop]
    constructor
    · rw [(ih _ rng _).1,
        (particleBody_medium_dims factory t cfg dt lsr rsr ltr rtr frontM
          backM f rng n).1]
    · rw [(ih _ rng _).2,
        (particleBody_medium_dims factory t cfg dt lsr rsr ltr rtr frontM
          backM f rng n).2]

/-- C10 (confirmed): the sensor and integration positions are
bounds-checked against the back medium while the sensed value is read
from the front medium; this cross-buffer indexing is safe because (i)
construction creates back as a clone of front, so both have equal
extents, (ii) a step preserves the equal-extents invariant (the
relaxation inherits the back buffer's extents, deposits never change
extents, and the swap exchanges whole buffers), and (iii) any cell
produced by the back-checked conversion is within the back extents and
hence within the (equal) front extents, in 2D and 3D alike. -/
theorem cross_buffer_safety {K : Type} [LinearOrderedField K] [FloorRing K] :
    (∀ (w h n : ℕ) (t : Trig K) (tau : K) (rng : ℕ → K)
        (sim : Slime2.SlimeSim K),
      Slime2.SlimeSim.new w h n t tau rng = some sim →
        sim.front.medium.width = sim.back.medium.width
        ∧ sim.front.medium.height = sim.back.medium.height)
    ∧ (∀ (t : Trig K) (cfg : Slime2.SlimeConfig K) (dt : K) (rng : ℕ → K)
        (sim : Slime2.SlimeSim K),
      sim.front.medium.width = sim.back.medium.width →
      sim.front.medium.height = sim.back.medium.height →
        (Slime2.SlimeSim.step t cfg dt rng sim).front.medium.width
            = (Slime2.SlimeSim.step t cfg dt rng sim).back.medium.width
        ∧ (Slime2.SlimeSim.step t cfg dt rng sim).front.medium.height
            = (Slime2.SlimeSim.step t cfg dt rng sim).back.medium.height)
    ∧ (∀ (front back : Slime2.Array2D K) (v : Slime2.Vec2 K) (p : ℕ × ℕ),
      front.width = back.width → front.height = back.height →
      Slime2.sample_array_vect back v = some p →
        p.1 < front.width ∧ p.2 < front.height)
    ∧ (∀ (front back : Slime3.Array3D K) (v : Slime3.Vec3 K) (p : ℕ × ℕ × ℕ),
      front.width = back.width → front.height = back.height →
      front.length = back.length →
      Slime3.sample_array_vect back v = some p →
        p.1 < front.width ∧ p.2.1 < front.height ∧ p.2.2 < front.length) := by
  refine ⟨?_, ?_, ?_, ?_⟩
  · intro w h n t tau rng sim hnew
    unfold Slime2.SlimeSim.new at hnew
    cases hfac : Slime2.SlimeFactory.new w h (tau : K) with
    | none => rw [hfac] at hnew; simp at hnew
    | some fac =>
      rw [hfac] at hnew
      cases hnew
      exact ⟨rfl, rfl⟩
  · intro t cfg dt rng sim hw hh
    constructor
    · show (Slime2.particle_step sim.factory t cfg dt sim.front
          (Slime2.diffuse_step cfg dt sim.front.medium sim.back.medium)
          rng 0).2.1.width = sim.front.medium.width
      unfold Slime2.particle_step
      rw [(particleLoop_medium_dims _ _ _ _ _ _ _ _ _ _ _ rng 0).1]
      exact hw.symm
    · show (Slime2.particle_step sim.factory t cfg dt sim.front
          (Slime2.diffuse_step cfg dt sim.front.medium sim.back.medium)
          rng 0).2.1.height = sim.front.medium.height
      unfold Slime2.particle_step
      rw [(particleLoop_medium_dims _ _ _ _ _ _ _ _ _ _ _ rng 0).2]
      exact hh.symm
  · intro front back v p hw hh hs
    have := sample_array_vect_lt back v p hs
    rw [hw, hh]
    exact this
  · intro front back v p hw hh hl hs
    have := sample_array_vect3_lt back v p hs
    rw [hw, hh, hl]
    exact this

/-- Witness for C10 at concrete inputs. -/
theorem cross_buffer_safety_witness :
    (Slime2.sample_array_vect Claims2.backB (⟨0, 1⟩ : Slime2.Vec2 ℚ)
        = some (0, 1)
      ∧ Claims2.frontB.width = Claims2.backB.width
      ∧ Claims2.frontB.height = Claims2.backB.height) ∧
    ((0 : ℕ) < Claims2.frontB.width ∧ (1 : ℕ) < Claims2.frontB.height) := by
  have hs : Slime2.sample_array_vect Claims2.backB (⟨0, 1⟩ : Slime2.Vec2 ℚ)
      = some (0, 1) := by
    norm_num [Slime2.sample_array_vect, Slime.boundsF, Claims2.backB]
  exact ⟨⟨hs, rfl, rfl⟩,
    (cross_buffer_safety (K := ℚ)).2.2.1 Claims2.frontB Claims2.backB
      ⟨0, 1⟩ (0, 1) rfl rfl hs⟩

end Claims10
